import Mathlib

/-!
fabtests: inject ping-pong, triggered RMA write and msg_epoll

A shallow embedding of `pingpong/rdm_inject_pingpong.c`,
`simple/rdm_rma_trigger.c` and `simple/msg_epoll.c`.

The programs are sequential C code over global variables that talk to an
external fabric provider.  A run is modelled by explicit state passing over
`State`: the globals the code reads and writes, the list `script` of the
answers the outside world will give to the next calls, and the list `trace`
of the calls made so far, in program order.  Every call to the provider (or
to a helper of `shared.c`, which is outside the sources and is treated like
the provider) appends one `Call` to the trace and takes the next `Reply` from
the script.  A function returns `none` exactly when the script runs dry
before the C function would return: the outside world never answers.

C `int` values are `Int`; `size_t` values are `Nat`; the two conversions the
code performs are `size_t_of_int` and `int_of_size_t`.  Diagnostics printed
with `FT_PRINTERR`, `fprintf` and `perror` have no influence on control flow
and are left out, but for the message `unexpected event!` of msg_epoll, which
is logged as a call.
-/

namespace Fabtests

/-- Memory contents: one natural number (below 256) per byte. -/
abbrev Bytes := List Nat

/-- Error numbers of `rdma/fi_errno.h`, a header outside the sources: taken as
parameters of the model. -/
structure Errno where
  FI_EAGAIN : Int
  FI_EINVAL : Int
  FI_EAVAIL : Int
  FI_ETOOSMALL : Int
  FI_EOTHER : Int
deriving DecidableEq, Repr

/-- The values the error numbers have on Linux (`EAGAIN`, `EINVAL`, and the
fabric-specific numbers 259, 257 and 256). -/
def linux_errno : Errno :=
  { FI_EAGAIN := 11, FI_EINVAL := 22, FI_EAVAIL := 259, FI_ETOOSMALL := 257,
    FI_EOTHER := 256 }

/-- The conversion `(size_t) i` of an `int`, `size_t` being 64 bits wide. -/
def size_t_of_int (i : Int) : Nat := (i % 2 ^ 64).toNat

/-- The conversion of a `size_t` to a 32-bit `int` (argument passing). -/
def int_of_size_t (n : Nat) : Int :=
  if n % 2 ^ 32 < 2 ^ 31 then ((n % 2 ^ 32 : Nat) : Int) else ((n % 2 ^ 32 : Nat) : Int) - 2 ^ 32

/-- The two completion queues of `shared.h`. -/
inductive CQ where
  | txcq
  | rxcq
deriving DecidableEq, Repr

/-- The two completion counters of `shared.h`. -/
inductive Cntr where
  | txcntr
  | rxcntr
deriving DecidableEq, Repr

/-- The context pointer of an operation: `NULL`, the address of one of the
`struct fi_context` globals, or the address of a `struct fi_triggered_context`
whose `event_type` is `FI_TRIGGER_THRESHOLD`, with the two fields of its
threshold trigger. -/
inductive Context where
  | null
  | fi_ctx
  | FI_TRIGGER_THRESHOLD (cntr : Cntr) (threshold : Nat)
deriving DecidableEq, Repr

/-- The `struct iovec` of a local buffer: `iov_base` is a byte offset into `buf`. -/
structure iovec where
  iov_base : Nat
  iov_len : Nat
deriving DecidableEq, Repr

/-- The `struct fi_rma_iov` of a remote buffer. -/
structure fi_rma_iov where
  addr : Nat
  len : Nat
  key : Nat
deriving DecidableEq, Repr

/-- The fields of `struct fi_msg_rma` that `rma_write` sets; `desc` is always
`fi_mr_desc(mr)`: `msg_iov` and `rma_iov` point to one element each. -/
structure fi_msg_rma where
  msg_iov : iovec
  iov_count : Nat
  addr : Nat
  rma_iov : fi_rma_iov
  rma_iov_count : Nat
  context : Context
deriving DecidableEq, Repr

/-- One call that leaves the program, with the arguments the properties below
speak about. -/
inductive Call where
  | ft_read_addr_opts
  | fi_getinfo
  | ft_open_fabric_res
  | fi_domain
  | ft_alloc_bufs
  | ft_alloc_active_res
  | ft_init_ep
  | malloc (size : Nat)
  | fi_cntr_open (cntr : Cntr)
  | fi_mr_reg (len : Nat) (key : Nat)
  | fi_av_open
  | fi_endpoint
  | fi_getname (addrlen : Nat)
  | fi_av_insert (addr : Bytes) (count : Nat)
  | fi_inject (data : Bytes) (len : Nat) (dest : Nat)
  | fi_cq_read (cq : CQ) (count : Nat)
  | cq_readerr (cq : CQ)
  | fi_recv (len : Nat) (src : Nat)
  | ft_wait_for_comp (cq : CQ) (num : Int)
  | clock_gettime_start
  | clock_gettime_end
  | init_test
  | show_perf (size : Int) (iters : Int) (xfers_per_iter : Int)
  | show_perf_mr (size : Int) (iters : Int) (xfers_per_iter : Int)
  | ft_finalize
  | fi_writemsg (msg : fi_msg_rma) (flags : Nat)
  | fi_cntr_wait (cntr : Cntr) (threshold : Nat) (timeout : Int)
  | fi_allocinfo
  | usage
  | hints_inject_size (size : Int)
  | ft_free_res
deriving DecidableEq, Repr

/-- What the outside world answers to one call: the returned `int`, a scalar
stored through an out-parameter (`addrlen` of `fi_getname`, the `fi_addr_t` of
`fi_av_insert`, `inject_size` of `fi_getinfo`, the iteration count of
`init_test`) and bytes stored through a pointer (the address of `fi_getname`,
`dest_addr` of `fi_getinfo`, the data that has landed in a receive buffer or a
registered region when a completion is reported). -/
structure Reply where
  ret : Int
  val : Nat
  out : Bytes
deriving DecidableEq, Repr

/-- The fields of `opts` (`struct cs_opts`) the code reads. -/
structure Opts where
  dst_addr : Bool
  transfer_size : Int
  iterations : Int
  machr : Bool
  opt_size : Bool
  size_option : Int
deriving DecidableEq, Repr

/-- The global variables, the pending answers and the calls made so far. -/
structure State where
  script : List Reply
  trace : List Call
  opts : Opts
  max_inject_size : Int
  addrlen : Nat
  local_addr : Bytes
  remote_addr : Bytes
  remote_fi_addr : Nat
  tx_buf : Bytes
  rx_buf : Bytes
  rx_size : Nat
  buf : Bytes
  buffer_size : Nat
deriving DecidableEq, Repr

/-- Make the call `c`: log it and take the next answer of the script. -/
def call (c : Call) (s : State) : Option (Reply × State) :=
  match s.script with
  | [] => none
  | r :: rest => some (r, { s with script := rest, trace := s.trace ++ [c] })

/-- Log a call that returns nothing the code looks at. -/
def emit (c : Call) (s : State) : State :=
  { s with trace := s.trace ++ [c] }

/-- The bytes `memcpy(dst + off, src, n)` leaves in the block `dst`: byte `i` is
replaced when `off ≤ i < off + n`.  Bytes that would fall outside the block are
not stored, and a source byte outside `src` reads as 0. -/
def memcpy (dst : Bytes) (off : Nat) (src : Bytes) (n : Nat) : Bytes :=
  (List.range dst.length).map fun i =>
    if off ≤ i ∧ i < off + n then src.getD (i - off) 0 else dst.getD i 0

/-- The effect on `rx_buf` of a reported receive completion: the bytes `r.out`
of the message have landed at the start of the posted buffer, at most `rx_size`
of them. -/
def deliver (r : Reply) (s : State) : State :=
  { s with rx_buf := memcpy s.rx_buf 0 r.out (min r.out.length s.rx_size) }

/-- The bytes `src[off]`, ..., `src[off + n - 1]`; a byte outside `src` reads as 0. -/
def read_bytes (src : Bytes) (off n : Nat) : Bytes :=
  (List.range n).map fun i => src.getD (off + i) 0

/-- The order of the bytes of an integer in the memory of the host. -/
inductive ByteOrder where
  | little
  | big
deriving DecidableEq, Repr

/-- The `k` low bytes of `n`, least significant first. -/
def le_bytes : Nat → Nat → Bytes
  | 0, _ => []
  | k + 1, n => n % 256 :: le_bytes k (n / 256)

/-- The number whose bytes, least significant first, are `bs`. -/
def le_value : Bytes → Nat
  | [] => 0
  | b :: bs => b + 256 * le_value bs

/-- The 8 bytes of a `size_t` object holding `n`, as `memcpy(dst, &n, 8)` sees them. -/
def size_t_bytes (H : ByteOrder) (n : Nat) : Bytes :=
  match H with
  | .little => le_bytes 8 n
  | .big => (le_bytes 8 n).reverse

/-- The value of a `size_t` object whose 8 bytes are `bs`, as `memcpy(&n, src, 8)`
leaves it. -/
def size_t_value (H : ByteOrder) (bs : Bytes) : Nat :=
  match H with
  | .little => le_value bs % 2 ^ 64
  | .big => le_value bs.reverse % 2 ^ 64

/-- The idiom `ret = f(); if (ret) return ret;` followed by the rest `k` of the
function. -/
def on_success (x : Option (Int × State)) (k : State → Option (Int × State)) :
    Option (Int × State) :=
  match x with
  | none => none
  | some (ret, s) => if ret ≠ 0 then some (ret, s) else k s

/-- A call of which the code uses the returned `int` only. -/
def ret_of (c : Call) (s : State) : Option (Int × State) :=
  match call c s with
  | none => none
  | some (r, s1) => some (r.ret, s1)

/-- The state once the answers before `rest` have been taken and `calls` made. -/
def advance (s : State) (rest : List Reply) (calls : List Call) : State :=
  { s with script := rest, trace := s.trace ++ calls }

/-- A state for examples: the given role, inject limit and script, 64-byte
buffers, transfer size 8, two iterations, peer handle 7, nothing called yet. -/
def example_state (dst : Bool) (max_inject : Int) (script : List Reply) : State :=
  { script := script, trace := [],
    opts := { dst_addr := dst, transfer_size := 8, iterations := 2, machr := false,
              opt_size := true, size_option := 0 },
    max_inject_size := max_inject, addrlen := 0, local_addr := [], remote_addr := [],
    remote_fi_addr := 7, tx_buf := List.replicate 64 0, rx_buf := List.replicate 64 0,
    rx_size := 64, buf := [], buffer_size := 0 }

/-- The example state with a local address of 4 bytes. -/
def example_addr_state (dst : Bool) (script : List Reply) : State :=
  { example_state dst 64 script with addrlen := 4, local_addr := [1, 2, 3, 4] }

/-- Answers for an initiator whose `fi_av_insert` returns 0: `init_fabric` of the
ping-pong succeeds, `fi_getname` gives a 4-byte address, the insertion inserts
nothing, and every later call succeeds. -/
def script_insert_zero : List Reply :=
  [⟨0, 0, []⟩, ⟨0, 64, [9, 9]⟩, ⟨0, 0, []⟩, ⟨0, 0, []⟩, ⟨0, 0, []⟩, ⟨0, 0, []⟩, ⟨0, 0, []⟩,
   ⟨-257, 4, []⟩, ⟨0, 4, [1, 2, 3, 4]⟩, ⟨0, 0, []⟩,
   ⟨0, 1, []⟩, ⟨0, 0, []⟩, ⟨1, 0, []⟩, ⟨0, 0, []⟩, ⟨0, 0, []⟩, ⟨1, 0, []⟩, ⟨0, 0, []⟩]

/-- Answers for the triggered-RMA client whose `fi_av_insert` returns 0: the
eleven calls of `init_fabric` before it succeed (`malloc` returns a block), the
insertion inserts nothing, and the three calls of the data phase succeed. -/
def script_rma_insert_zero : List Reply :=
  [⟨0, 0, []⟩, ⟨0, 0, [9, 9]⟩, ⟨0, 0, []⟩, ⟨0, 0, []⟩, ⟨1, 0, []⟩, ⟨0, 0, []⟩, ⟨0, 0, []⟩,
   ⟨0, 0, []⟩, ⟨0, 0, []⟩, ⟨0, 0, []⟩, ⟨0, 0, []⟩,
   ⟨0, 0, []⟩,
   ⟨0, 0, []⟩, ⟨0, 0, []⟩, ⟨0, 0, []⟩]

/-- The answers of the provider during one exchange of the ping-pong (one
`send_xfer` and one `recv_xfer`): the answer to `fi_inject`, the answers
`retries` to the reads of the receive queue that find it empty, the answer
`comp` to the read that finds the completion, and the answer to `fi_recv`. -/
structure Round where
  inject : Reply
  retries : List Reply
  comp : Reply
  recv : Reply
deriving DecidableEq, Repr

/-- Every provider call of the exchange succeeds: `fi_inject` and `fi_recv`
return 0, the queue is read again while it answers `-FI_EAGAIN`, and the last
read does not fail. -/
def Round.ok (E : Errno) (r : Round) : Prop :=
  r.inject.ret = 0 ∧ (∀ x ∈ r.retries, x.ret = -E.FI_EAGAIN) ∧ 0 ≤ r.comp.ret ∧
    r.recv.ret = 0

instance (E : Errno) (r : Round) : Decidable (r.ok E) := by
  unfold Round.ok
  infer_instance

/-- The answers of one exchange in the order the calls are made: the send comes
first on the side that has a destination address, the receive on the other. -/
def Round.answers (dst : Bool) (r : Round) : List Reply :=
  if dst then r.inject :: (r.retries ++ [r.comp, r.recv])
  else r.retries ++ [r.comp, r.recv, r.inject]

/-- The calls of one exchange of `size` bytes, made from the state `s`: one
`fi_inject` for the `send_xfer`, and for the `recv_xfer` the reads of the
receive queue followed by one `fi_recv`. -/
def Round.calls (s : State) (size : Int) (r : Round) : List Call :=
  let send := Call.fi_inject (s.tx_buf.take (size_t_of_int size)) (size_t_of_int size)
    s.remote_fi_addr
  let recv := List.replicate (r.retries.length + 1) (Call.fi_cq_read .rxcq 1) ++
    [Call.fi_recv s.rx_size s.remote_fi_addr]
  if s.opts.dst_addr then send :: recv else recv ++ [send]

/-- Is the call an `fi_inject` (the one call of a `send_xfer`)? -/
def is_fi_inject : Call → Bool
  | .fi_inject _ _ _ => true
  | _ => false

/-- Is the call an `fi_recv` (the one call with which a `recv_xfer` ends)? -/
def is_fi_recv : Call → Bool
  | .fi_recv _ _ => true
  | _ => false

/-- The answers of a list of exchanges, one after the other. -/
def all_answers (dst : Bool) : List Round → List Reply
  | [] => []
  | r :: rs => r.answers dst ++ all_answers dst rs

/-- The calls of a list of exchanges, one after the other. -/
def all_calls (s : State) (size : Int) : List Round → List Call
  | [] => []
  | r :: rs => r.calls s size ++ all_calls s size rs

/-- The globals a transfer reads are the same in `s1` as in `s`. -/
def frame (s s1 : State) : Prop :=
  s1.opts = s.opts ∧ s1.max_inject_size = s.max_inject_size ∧ s1.tx_buf = s.tx_buf ∧
    s1.rx_size = s.rx_size ∧ s1.remote_fi_addr = s.remote_fi_addr

/-- The status `EXIT_FAILURE` of `stdlib.h`. -/
def EXIT_FAILURE : Int := 1

namespace Pingpong

/-- `send_xfer` (lines 57-71). -/
def send_xfer (E : Errno) (size : Int) (s : State) : Option (Int × State) :=
  if size > s.max_inject_size then
    some (-E.FI_EINVAL, s)
  else
    match call (.fi_inject (s.tx_buf.take (size_t_of_int size)) (size_t_of_int size)
        s.remote_fi_addr) s with
    | none => none
    | some (r, s1) => some (r.ret, s1)

/-- The `do ... while (ret == -FI_EAGAIN)` loop of `recv_xfer` (lines 78-88).
The result is `(true, ret)` when the function returns `ret` from inside the
loop and `(false, ret)` when the loop is left normally.  The first argument
bounds the number of rounds; `recv_xfer` passes the length of the script, which
is never reached because every round takes one answer. -/
def recv_xfer_loop (E : Errno) : Nat → State → Option ((Bool × Int) × State)
  | 0, _ => none
  | fuel + 1, s =>
    match call (.fi_cq_read .rxcq 1) s with
    | none => none
    | some (r, s1) =>
      if r.ret < 0 ∧ r.ret ≠ -E.FI_EAGAIN then
        if r.ret = -E.FI_EAVAIL then
          some ((true, r.ret), emit (.cq_readerr .rxcq) s1)
        else
          some ((true, r.ret), s1)
      else if r.ret = -E.FI_EAGAIN then
        recv_xfer_loop E fuel s1
      else
        some ((false, r.ret), deliver r s1)

/-- `recv_xfer` (lines 73-96). -/
def recv_xfer (E : Errno) (_size : Int) (s : State) : Option (Int × State) :=
  match recv_xfer_loop E s.script.length s with
  | none => none
  | some ((true, ret), s1) => some (ret, s1)
  | some ((false, _), s1) =>
    match call (.fi_recv s1.rx_size s1.remote_fi_addr) s1 with
    | none => none
    | some (r, s2) => some (r.ret, s2)

/-- `recv_msg` (lines 98-111); `ft_wait_for_comp` is a helper of `shared.c`. -/
def recv_msg (s : State) : Option (Int × State) :=
  match call (.fi_recv s.rx_size 0) s with
  | none => none
  | some (r, s1) =>
    if r.ret ≠ 0 then some (r.ret, s1)
    else
      match call (.ft_wait_for_comp .rxcq 1) s1 with
      | none => none
      | some (r2, s2) => some (r2.ret, deliver r2 s2)

/-- `sync_test` (lines 113-122). -/
def sync_test (E : Errno) (s : State) : Option (Int × State) :=
  match (if s.opts.dst_addr then send_xfer E 16 s else recv_xfer E 16 s) with
  | none => none
  | some (ret, s1) =>
    if ret ≠ 0 then some (ret, s1)
    else if s1.opts.dst_addr then recv_xfer E 16 s1 else send_xfer E 16 s1

/-- The `for` loop of `run_test` (lines 136-146) with `n` rounds still to go;
a result other than 0 is the `goto out` of a failed transfer. -/
def run_test_loop (E : Errno) : Nat → State → Option (Int × State)
  | 0, s => some (0, s)
  | n + 1, s =>
    match (if s.opts.dst_addr then send_xfer E s.opts.transfer_size s
           else recv_xfer E s.opts.transfer_size s) with
    | none => none
    | some (ret, s1) =>
      if ret ≠ 0 then some (ret, s1)
      else
        match (if s1.opts.dst_addr then recv_xfer E s1.opts.transfer_size s1
               else send_xfer E s1.opts.transfer_size s1) with
        | none => none
        | some (ret2, s2) =>
          if ret2 ≠ 0 then some (ret2, s2) else run_test_loop E n s2

/-- `run_test` (lines 124-158).  The loop `for (i = 0; i < opts.iterations; i++)`
makes `opts.iterations` rounds, none when that number is negative. -/
def run_test (E : Errno) (s : State) : Option (Int × State) :=
  if s.opts.transfer_size > s.max_inject_size then some (0, s)
  else
    match sync_test E s with
    | none => none
    | some (ret, s1) =>
      if ret ≠ 0 then some (ret, s1)
      else
        match run_test_loop E s1.opts.iterations.toNat (emit .clock_gettime_start s1) with
        | none => none
        | some (ret2, s2) =>
          if ret2 ≠ 0 then some (ret2, s2)
          else
            let s3 := emit .clock_gettime_end s2
            if s3.opts.machr then
              some (0, emit (.show_perf_mr s3.opts.transfer_size s3.opts.iterations 2) s3)
            else
              some (0, emit (.show_perf s3.opts.transfer_size s3.opts.iterations 2) s3)

/-- `alloc_ep_res` (lines 160-179); both helpers are in `shared.c`. -/
def alloc_ep_res (s : State) : Option (Int × State) :=
  on_success (ret_of .ft_alloc_bufs s) fun s1 => ret_of .ft_alloc_active_res s1

/-- `init_fabric` (lines 181-231).  The answer to `fi_getinfo` carries
`fi->tx_attr->inject_size` in `val` and the `dest_addrlen` bytes of
`fi->dest_addr` in `out`. -/
def init_fabric (E : Errno) (s : State) : Option (Int × State) :=
  on_success (ret_of .ft_read_addr_opts s) fun s1 =>
    match call .fi_getinfo s1 with
    | none => none
    | some (r, s2) =>
      if r.ret ≠ 0 then some (r.ret, s2)
      else
        let s3 := { s2 with max_inject_size := int_of_size_t r.val }
        if s3.opts.opt_size ∧ s3.opts.transfer_size > s3.max_inject_size then
          some (-E.FI_EINVAL, s3)
        else
          let s4 := if s3.opts.dst_addr then
            { s3 with addrlen := r.out.length, remote_addr := r.out } else s3
          on_success (ret_of .ft_open_fabric_res s4) fun s5 =>
            on_success (ret_of .fi_domain s5) fun s6 =>
              on_success (alloc_ep_res s6) fun s7 => ret_of .ft_init_ep s7

/-- The call `fi_av_insert(av, remote_addr, 1, &remote_fi_addr, 0, &fi_ctx_av)`
with its test `if (ret != 1) return ret;`, followed by the rest `k`. -/
def av_insert_then (s : State) (k : State → Option (Int × State)) : Option (Int × State) :=
  match call (.fi_av_insert s.remote_addr 1) s with
  | none => none
  | some (r, s1) =>
    let s2 := { s1 with remote_fi_addr := r.val }
    if r.ret ≠ 1 then some (r.ret, s2) else k s2

/-- The end of `init_av` (lines 296-302): post the first receive. -/
def post_first_recv (s : State) : Option (Int × State) :=
  ret_of (.fi_recv s.rx_size s.remote_fi_addr) s

/-- The two `memcpy` calls of `init_av` that put the size of the local address
and the local address into `tx_buf` (lines 262-263). -/
def pack_local_addr (H : ByteOrder) (s : State) : State :=
  let s1 := { s with tx_buf := memcpy s.tx_buf 0 (size_t_bytes H s.addrlen) 8 }
  { s1 with tx_buf := memcpy s1.tx_buf 8 s1.local_addr s1.addrlen }

/-- The statements of `init_av` that take the size of the remote address and the
remote address out of `rx_buf` (lines 279-281). -/
def unpack_remote_addr (H : ByteOrder) (s : State) : State :=
  let s1 := { s with addrlen := size_t_value H (read_bytes s.rx_buf 0 8) }
  { s1 with remote_addr := read_bytes s1.rx_buf 8 s1.addrlen }

/-- `init_av` (lines 233-303).  The answers to `fi_getname` carry the address
length in `val` and the address in `out`. -/
def init_av (E : Errno) (H : ByteOrder) (s : State) : Option (Int × State) :=
  if s.opts.dst_addr then
    match call (.fi_getname 0) { s with addrlen := 0 } with
    | none => none
    | some (r1, t1) =>
      let s1 := { t1 with addrlen := r1.val % 2 ^ 64 }
      if r1.ret ≠ -E.FI_ETOOSMALL then some (r1.ret, s1)
      else
        match call (.fi_getname s1.addrlen) s1 with
        | none => none
        | some (r2, t2) =>
          let s2 := { t2 with local_addr := r2.out.take s1.addrlen,
                              addrlen := r2.val % 2 ^ 64 }
          if r2.ret ≠ 0 then some (r2.ret, s2)
          else
            av_insert_then s2 fun s3 =>
              let s4 := pack_local_addr H s3
              on_success (send_xfer E (int_of_size_t ((8 + s4.addrlen) % 2 ^ 64)) s4) fun s5 =>
                on_success (recv_msg s5) post_first_recv
  else
    on_success (recv_msg s) fun s1 =>
      av_insert_then (unpack_remote_addr H s1) fun s2 =>
        on_success (send_xfer E 16 s2) post_first_recv

/-- The two statements `init_test(...); ret = run_test();` of `run`.  `init_test`
is a helper of `shared.c`; the iteration count it leaves in `opts.iterations` is
the `val` of its answer. -/
def init_and_run_test (E : Errno) (s : State) : Option (Int × State) :=
  match call .init_test s with
  | none => none
  | some (r, s1) => run_test E { s1 with opts := { s1.opts with iterations := r.val } }

/-- The loop of `run` over the entries `(size, option)` of the table `test_size`
of `shared.c` (lines 318-326). -/
def run_sizes (E : Errno) : List (Int × Int) → State → Option (Int × State)
  | [], s => some (0, s)
  | (size, option) :: rest, s =>
    if option > s.opts.size_option then run_sizes E rest s
    else
      on_success (init_and_run_test E { s with opts := { s.opts with transfer_size := size } })
        (run_sizes E rest)

/-- `run` (lines 305-338); `test_size` is the table of `shared.c`. -/
def run (E : Errno) (H : ByteOrder) (test_size : List (Int × Int)) (s : State) :
    Option (Int × State) :=
  on_success (init_fabric E s) fun s1 =>
    on_success (init_av E H s1) fun s2 =>
      on_success (if ¬ s2.opts.opt_size then run_sizes E test_size s2
                  else init_and_run_test E s2) fun s3 =>
        some (0, emit .ft_finalize s3)

/-- `main` (lines 340-382) from the allocation of `hints` on.  The options are
read by `getopt` and the parsers of `shared.c`: `s.opts` holds them as the
option loop leaves them, and `help` tells whether the loop met `-h` or an
unknown option.  The answer to `fi_allocinfo` is 0 for `NULL`.  The value
stored in `hints->tx_attr->inject_size` (lines 373-376) is logged. -/
def main (E : Errno) (H : ByteOrder) (test_size : List (Int × Int)) (help : Bool)
    (s : State) : Option (Int × State) :=
  match call .fi_allocinfo s with
  | none => none
  | some (r, s1) =>
    if r.ret = 0 then some (EXIT_FAILURE, s1)
    else if help then some (EXIT_FAILURE, emit .usage s1)
    else
      let s2 := emit (.hints_inject_size
        (if s1.opts.transfer_size ≠ 0 then s1.opts.transfer_size else 16)) s1
      match run E H test_size s2 with
      | none => none
      | some (ret, s3) => some (-ret, emit .ft_free_res s3)

end Pingpong

namespace RmaTrigger

/-- The static `user_defined_key` (line 52). -/
def user_defined_key : Nat := 45678

/-- The characters of `welcome_text1` (line 53), without the terminating NUL. -/
def welcome_text1 : Bytes := "Hello1 from Client!".toList.map Char.toNat

/-- The characters of `welcome_text2` (line 54), without the terminating NUL. -/
def welcome_text2 : Bytes := "Hello2 from Client!".toList.map Char.toNat

/-- `strlen` of a string given by its characters. -/
def strlen (text : Bytes) : Nat := text.length

/-- The bytes `sprintf(buf + off, "%s", text)` leaves in the block `buf`: the
characters of `text` and a terminating NUL, from offset `off` on. -/
def sprintf (buf : Bytes) (off : Nat) (text : Bytes) : Bytes :=
  memcpy buf off (text ++ [0]) (text.length + 1)

/-- `strncmp(a, b, n)`: the difference of the first two bytes that differ among
the first `n`, and 0 when there is none before a NUL or the `n`-th byte. -/
def strncmp : Nat → Bytes → Bytes → Int
  | 0, _, _ => 0
  | n + 1, a, b =>
    if a.headD 0 ≠ b.headD 0 then (a.headD 0 : Int) - (b.headD 0 : Int)
    else if a.headD 0 = 0 then 0
    else strncmp n a.tail b.tail

/-- `rma_write` (lines 56-87); `src` is the offset of the source in `buf`. -/
def rma_write (src : Nat) (size : Nat) (context : Context) (flags : Nat) (s : State) :
    Option (Int × State) :=
  let msg_iov : iovec := { iov_base := src, iov_len := size }
  let rma_iov : fi_rma_iov := { addr := 0, len := size, key := user_defined_key }
  let msg : fi_msg_rma :=
    { msg_iov := msg_iov, iov_count := 1, rma_iov_count := 1, addr := s.remote_fi_addr,
      rma_iov := rma_iov, context := context }
  match call (.fi_writemsg msg flags) s with
  | none => none
  | some (r, s1) => if r.ret ≠ 0 then some (r.ret, s1) else some (0, s1)

/-- `rma_write_trigger` (lines 89-97); `FI_TRIGGER` is the flag of
`rdma/fabric.h`, a header outside the sources. -/
def rma_write_trigger (FI_TRIGGER : Nat) (src : Nat) (size : Nat) (cntr : Cntr)
    (threshold : Nat) (s : State) : Option (Int × State) :=
  rma_write src size (.FI_TRIGGER_THRESHOLD cntr threshold) FI_TRIGGER s

/-- `alloc_ep_res` (lines 99-153).  The answer to `malloc` is 0 for `NULL`; its
`out` bytes are the indeterminate contents of the new block. -/
def alloc_ep_res (s : State) : Option (Int × State) :=
  let s0 := { s with buffer_size := strlen welcome_text1 + strlen welcome_text2 }
  match call (.malloc s0.buffer_size) s0 with
  | none => none
  | some (r, s1) =>
    if r.ret = 0 then some (-1, s1)
    else
      let s2 := { s1 with buf := read_bytes r.out 0 s1.buffer_size }
      on_success (ret_of (.fi_cntr_open .txcntr) s2) fun s3 =>
        on_success (ret_of (.fi_cntr_open .rxcntr) s3) fun s4 =>
          on_success (ret_of (.fi_mr_reg s4.buffer_size user_defined_key) s4) fun s5 =>
            on_success (ret_of .fi_av_open s5) fun s6 =>
              on_success (ret_of .fi_endpoint s6) fun s7 => some (0, s7)

/-- `init_fabric` (lines 155-204). -/
def init_fabric (s : State) : Option (Int × State) :=
  on_success (ret_of .ft_read_addr_opts s) fun s1 =>
    match call .fi_getinfo s1 with
    | none => none
    | some (r, s2) =>
      if r.ret ≠ 0 then some (r.ret, s2)
      else
        let s3 := if s2.opts.dst_addr then
          { s2 with addrlen := r.out.length, remote_addr := r.out } else s2
        on_success (ret_of .ft_open_fabric_res s3) fun s4 =>
          on_success (ret_of .fi_domain s4) fun s5 =>
            on_success (alloc_ep_res s5) fun s6 =>
              on_success (ret_of .ft_init_ep s6) fun s7 =>
                if s7.opts.dst_addr then
                  match call (.fi_av_insert s7.remote_addr 1) s7 with
                  | none => none
                  | some (r2, s8) =>
                    let s9 := { s8 with remote_fi_addr := r2.val }
                    if r2.ret ≠ 1 then some (r2.ret, s9) else some (0, s9)
                else some (0, s7)

/-- The effect on `buf` of the remote writes the provider has reported through
a counter: the bytes `r.out` have landed at the start of the registered region. -/
def land (r : Reply) (s : State) : State :=
  { s with buf := memcpy s.buf 0 r.out r.out.length }

/-- The part of `run_test` after `init_fabric` (lines 215-260). -/
def run_test_after_init (FI_TRIGGER : Nat) (s : State) : Option (Int × State) :=
  if s.opts.dst_addr then
    let ptr1 := 0
    let s1 := { s with buf := sprintf s.buf ptr1 welcome_text1 }
    let ptr2 := ptr1 + strlen welcome_text1
    let s2 := { s1 with buf := sprintf s1.buf ptr2 welcome_text2 }
    on_success (rma_write_trigger FI_TRIGGER ptr2 (strlen welcome_text2) .txcntr 1 s2) fun s3 =>
      on_success (rma_write ptr1 (strlen welcome_text1) .null 0 s3) fun s4 =>
        ret_of (.fi_cntr_wait .txcntr 2 (-1)) s4
  else
    match call (.fi_cntr_wait .rxcntr 2 (-1)) s with
    | none => none
    | some (r, s1) =>
      if r.ret < 0 then some (r.ret, s1)
      else
        let s2 := land r s1
        if strncmp (strlen welcome_text2) s2.buf (welcome_text2 ++ [0]) ≠ 0 then some (-1, s2)
        else some (0, s2)

/-- `run_test` (lines 206-261). -/
def run_test (FI_TRIGGER : Nat) (s : State) : Option (Int × State) :=
  on_success (init_fabric s) (run_test_after_init FI_TRIGGER)

/-- `main` (lines 263-297) from the allocation of `hints` on; `help` tells
whether the option loop met `-h` or an unknown option. -/
def main (FI_TRIGGER : Nat) (help : Bool) (s : State) : Option (Int × State) :=
  match call .fi_allocinfo s with
  | none => none
  | some (r, s1) =>
    if r.ret = 0 then some (EXIT_FAILURE, s1)
    else if help then some (EXIT_FAILURE, emit .usage s1)
    else
      match run_test FI_TRIGGER s1 with
      | none => none
      | some (ret, s2) => some (-ret, emit .ft_free_res s2)

/-- The indices of the block `buf` that `sprintf(buf + off, "%s", text)` stores
to: one for each character of `text` and one for the terminating NUL. -/
def sprintf_writes (off : Nat) (text : Bytes) : List Nat :=
  List.range' off (text.length + 1)

/-- The indices of `buf` that the two `sprintf` calls of `run_test` store to
(lines 216-219). -/
def staging_writes : List Nat :=
  sprintf_writes 0 welcome_text1 ++ sprintf_writes (0 + strlen welcome_text1) welcome_text2

/-! ### The provider model of the triggered-write claim

The provider is outside the sources, so the definitions of this part are
modelled from the spec, not from code.  The model is the one the property
about triggered writes states: a write posted with the flag `FI_TRIGGER` and a
threshold trigger is not executed before its counter has reached the threshold;
an executed write copies its source bytes to the offset `rma_iov.addr` of the
peer's registered region and then increments the send counter of the initiator
by one.  Submitted writes may be executed at any later moment, in any order the
triggers allow. -/

/-- Modelled from the spec: the provider's view, that is the writes submitted
and not yet executed (with their flags), the two counters of the initiator, the
initiator's `buf`, the peer's registered region and the writes executed so
far, in order of execution. -/
structure Fabric where
  pending : List (fi_msg_rma × Nat)
  txcntr : Nat
  rxcntr : Nat
  client_buf : Bytes
  region : Bytes
  applied : List fi_msg_rma
deriving DecidableEq, Repr

/-- Modelled from the spec: the value of a counter of the initiator. -/
def Fabric.cntr (f : Fabric) : Cntr → Nat
  | .txcntr => f.txcntr
  | .rxcntr => f.rxcntr

/-- Modelled from the spec: may the provider execute the write `op` now?  A
write posted with the flag `FI_TRIGGER` and a threshold trigger waits until its
counter has reached the threshold. -/
def ready (FI_TRIGGER : Nat) (f : Fabric) (op : fi_msg_rma × Nat) : Bool :=
  if op.2 &&& FI_TRIGGER ≠ 0 then
    match op.1.context with
    | .FI_TRIGGER_THRESHOLD c threshold => decide (threshold ≤ f.cntr c)
    | _ => true
  else true

/-- Modelled from the spec: the provider executes the write `op`, copying the
source bytes to the peer's region and then adding one to the send counter. -/
def execute (f : Fabric) (op : fi_msg_rma) : Fabric :=
  { f with
    region := memcpy f.region op.rma_iov.addr
      (read_bytes f.client_buf op.msg_iov.iov_base op.msg_iov.iov_len) op.rma_iov.len,
    txcntr := f.txcntr + 1,
    applied := f.applied ++ [op] }

/-- Modelled from the spec: one step of a run of the initiator against the
provider. -/
inductive Action where
  | submit
  | execute (i : Nat)
deriving DecidableEq, Repr

/-- Modelled from the spec: the effect of one step on the writes the program
has still to submit (in program order) and on the provider: `submit` hands the
next write to the provider, `execute i` lets the provider execute the pending
write number `i`, which is possible only when that write is ready. -/
def step (FI_TRIGGER : Nat) (a : Action) (x : List (fi_msg_rma × Nat) × Fabric) :
    Option (List (fi_msg_rma × Nat) × Fabric) :=
  match a with
  | .submit =>
    match x.1 with
    | [] => none
    | op :: todo => some (todo, { x.2 with pending := x.2.pending ++ [op] })
  | .execute i =>
    match x.2.pending.get? i with
    | none => none
    | some op =>
      if ready FI_TRIGGER x.2 op then
        some (x.1, execute { x.2 with pending := x.2.pending.eraseIdx i } op.1)
      else none

/-- Modelled from the spec: a run, the steps of a schedule one after the other. -/
def run_schedule (FI_TRIGGER : Nat) :
    List Action → List (fi_msg_rma × Nat) × Fabric → Option (List (fi_msg_rma × Nat) × Fabric)
  | [], x => some x
  | a :: rest, x =>
    match step FI_TRIGGER a x with
    | none => none
    | some y => run_schedule FI_TRIGGER rest y

/-- The writes a trace submits, in program order. -/
def writes_of : List Call → List (fi_msg_rma × Nat)
  | [] => []
  | .fi_writemsg msg flags :: rest => (msg, flags) :: writes_of rest
  | _ :: rest => writes_of rest

/-- Modelled from the spec: the provider before the first submission, nothing
pending and the counters at 0. -/
def fabric_start (client_buf region : Bytes) : Fabric :=
  { pending := [], txcntr := 0, rxcntr := 0, client_buf := client_buf, region := region,
    applied := [] }

/-- Does the call read a completion queue? -/
def reads_cq : Call → Bool
  | .fi_cq_read _ _ => true
  | .cq_readerr _ => true
  | .ft_wait_for_comp _ _ => true
  | _ => false

/-- No call made between the states `s0` and `s` reads a completion queue. -/
def quiet_since (s0 s : State) : Prop :=
  ∃ calls, s.trace = s0.trace ++ calls ∧ ∀ c ∈ calls, reads_cq c = false

/-- Answers for a run of the triggered-RMA program in which `init_fabric`
succeeds (`malloc` returns a block, `fi_av_insert` on the client inserts one
address and gives the handle 3), followed by the answers `more`. -/
def script_rma (dst : Bool) (more : List Reply) : List Reply :=
  [⟨0, 0, []⟩, ⟨0, 0, [9, 9]⟩, ⟨0, 0, []⟩, ⟨0, 0, []⟩, ⟨1, 0, []⟩, ⟨0, 0, []⟩, ⟨0, 0, []⟩,
   ⟨0, 0, []⟩, ⟨0, 0, []⟩, ⟨0, 0, []⟩, ⟨0, 0, []⟩] ++
  (if dst then [⟨1, 3, []⟩] else []) ++ more

/-- The state in which `init_fabric` leaves the example state on the script
`script_rma dst more`. -/
def rma_ready (dst : Bool) (more : List Reply) : State :=
  { example_state dst 64 more with
    trace := [.ft_read_addr_opts, .fi_getinfo, .ft_open_fabric_res, .fi_domain, .malloc 38,
      .fi_cntr_open .txcntr, .fi_cntr_open .rxcntr, .fi_mr_reg 38 45678, .fi_av_open,
      .fi_endpoint, .ft_init_ep] ++ (if dst then [.fi_av_insert [9, 9] 1] else []),
    addrlen := if dst then 2 else 0,
    remote_addr := if dst then [9, 9] else [],
    remote_fi_addr := if dst then 3 else 7,
    buf := List.replicate 38 0,
    buffer_size := 38 }

/-- The descriptor of the untriggered write of `welcome_text1` that the client
submits (line 229), `dest` being `remote_fi_addr`. -/
def write1 (dest : Nat) : fi_msg_rma :=
  { msg_iov := { iov_base := 0, iov_len := 19 }, iov_count := 1, addr := dest,
    rma_iov := { addr := 0, len := 19, key := 45678 }, rma_iov_count := 1, context := .null }

/-- The descriptor of the triggered write of `welcome_text2` that the client
submits (line 223). -/
def write2 (dest : Nat) : fi_msg_rma :=
  { msg_iov := { iov_base := 19, iov_len := 19 }, iov_count := 1, addr := dest,
    rma_iov := { addr := 0, len := 19, key := 45678 }, rma_iov_count := 1,
    context := .FI_TRIGGER_THRESHOLD .txcntr 1 }

/-- Modelled from the spec: the states a run of the client against the
provider goes through, from the first submission on: nothing submitted; the
triggered write submitted; both submitted; the untriggered write executed;
both executed. -/
def client_states (FI_TRIGGER dest : Nat) (client_buf region : Bytes) :
    List (List (fi_msg_rma × Nat) × Fabric) :=
  let f0 := fabric_start client_buf region
  let f1 := execute { f0 with pending := [(write2 dest, FI_TRIGGER)] } (write1 dest)
  let f2 := execute { f1 with pending := [] } (write2 dest)
  [([(write2 dest, FI_TRIGGER), (write1 dest, 0)], f0),
   ([(write1 dest, 0)], { f0 with pending := [(write2 dest, FI_TRIGGER)] }),
   ([], { f0 with pending := [(write2 dest, FI_TRIGGER), (write1 dest, 0)] }),
   ([], f1),
   ([], f2)]

end RmaTrigger

/-! ## `simple/msg_epoll.c`

The program has globals and calls of its own, so it gets a state of its own,
built like the one above: the answers still to come, the calls made so far and
the variables.  The contents of `buf` play no part in its control flow and are
left out. -/

namespace MsgEpoll

/-- Constants of the libfabric headers that `msg_epoll.c` uses: the two event
numbers of `rdma/fi_eq.h` and `sizeof (struct fi_eq_cm_entry)`.  The headers
are outside the sources: taken as parameters. -/
structure Consts where
  FI_CONNREQ : Nat
  FI_CONNECTED : Nat
  sizeof_entry : Int
deriving DecidableEq, Repr

/-- Values for examples. -/
def example_consts : Consts := { FI_CONNREQ := 1, FI_CONNECTED := 2, sizeof_entry := 16 }

/-- The conversion `(int) rd` of an `ssize_t` to a 32-bit `int`. -/
def int_of_ssize_t (rd : Int) : Int := (rd + 2 ^ 31) % 2 ^ 32 - 2 ^ 31

/-- One call that leaves the program.  `info` and `fid` arguments are the
addresses of the objects, `tag` is the `data.ptr` registered with a descriptor. -/
inductive Call where
  | fi_allocinfo
  | usage
  | fi_getinfo
  | fi_fabric
  | fi_passive_ep
  | fi_eq_open
  | fi_pep_bind
  | fi_listen
  | fi_eq_sread
  | FT_PROCESS_EQ_ERR (rd : Int)
  | fi_domain (info : Nat)
  | malloc (size : Nat)
  | fi_cq_open (cq : CQ)
  | epoll_create1
  | fi_control_getwait (fid : Nat)
  | epoll_ctl_add (epfd : Int) (fd : Nat) (tag : Nat)
  | fi_mr_reg (len : Nat)
  | fi_endpoint (info : Nat)
  | fi_ep_bind_eq
  | fi_ep_bind (cq : CQ)
  | fi_accept
  | fi_connect
  | fi_reject (info : Nat)
  | fi_freeinfo (info : Nat)
  | fi_send (len : Nat)
  | fi_recv (len : Nat)
  | epoll_wait (epfd : Int)
  | unexpected_event
  | fi_cq_sread (cq : CQ)
  | FT_PROCESS_CQ_ERR (cq : CQ)
  | fi_shutdown
  | ft_free_res
  | close (fd : Int)
deriving DecidableEq, Repr

/-- What the outside world answers to one call: the returned value; `val`, the
object or descriptor stored through an out-parameter (the `fi_info` of
`fi_getinfo`, the queue of `fi_cq_open`, the endpoint of `fi_endpoint`, the
descriptor of `fi_control`); for `fi_eq_sread` the event number and the fields
`fid` and `info` of the entry; for `epoll_wait` the `data.ptr` of the event in
`fid`; and the value of `errno` after a failed system call. -/
structure Reply where
  ret : Int
  val : Nat
  event : Nat
  fid : Nat
  info : Nat
  errno : Int
deriving DecidableEq, Repr

/-- The global variables the code reads: `opts.dst_addr` (is it set?),
`buffer_size`, `fi`, and the addresses `&ep->fid`, `&txcq->fid`, `&rxcq->fid`,
and `epfd`. -/
structure Vars where
  dst_addr : Bool
  buffer_size : Nat
  fi : Nat
  ep : Nat
  txcq : Nat
  rxcq : Nat
  epfd : Int
deriving DecidableEq, Repr

/-- The pending answers, the calls made so far and the variables. -/
structure State where
  script : List Reply
  trace : List Call
  vars : Vars
deriving DecidableEq, Repr

/-- Make the call `c`: log it and take the next answer of the script. -/
def call (c : Call) (s : State) : Option (Reply × State) :=
  match s.script with
  | [] => none
  | r :: rest => some (r, { s with script := rest, trace := s.trace ++ [c] })

/-- Log a call that returns nothing the code looks at. -/
def emit (c : Call) (s : State) : State :=
  { s with trace := s.trace ++ [c] }

/-- The state once the answers before `rest` have been taken and `calls` made. -/
def advance (s : State) (rest : List Reply) (calls : List Call) : State :=
  { s with script := rest, trace := s.trace ++ calls }

/-- A call followed by a test: the answer `r` is stored by `upd`; when `fails r`
the function returns `code r`, otherwise it goes on with `k`. -/
def guarded (c : Call) (fails : Reply → Bool) (code : Reply → Int)
    (upd : Reply → Vars → Vars) (s : State) (k : State → Option (Int × State)) :
    Option (Int × State) :=
  match call c s with
  | none => none
  | some (r, s1) =>
    if fails r then some (code r, { s1 with vars := upd r s1.vars })
    else k { s1 with vars := upd r s1.vars }

/-- The idiom `ret = f(...); if (ret) { ...; return ret; }` for a call `c`,
followed by the rest `k`. -/
def checked (c : Call) (upd : Reply → Vars → Vars) (s : State)
    (k : State → Option (Int × State)) : Option (Int × State) :=
  guarded c (fun r => decide (r.ret ≠ 0)) (fun r => r.ret) upd s k

/-- The idiom `ret = f(); if (ret) return ret;` for a function of the program,
followed by the rest `k`. -/
def on_success (x : Option (Int × State)) (k : State → Option (Int × State)) :
    Option (Int × State) :=
  match x with
  | none => none
  | some (ret, s) => if ret ≠ 0 then some (ret, s) else k s

/-- A call of which the code uses the returned `int` only, as the value of the
function. -/
def ret_of (c : Call) (s : State) : Option (Int × State) :=
  match call c s with
  | none => none
  | some (r, s1) => some (r.ret, s1)

/-- `alloc_cm_res` (lines 50-63). -/
def alloc_cm_res (s : State) : Option (Int × State) :=
  ret_of .fi_eq_open s

/-- `alloc_ep_res` (lines 65-154) for the `fi_info` at `info`.  The answer to
`malloc` is 0 for `NULL`. -/
def alloc_ep_res (info : Nat) (s : State) : Option (Int × State) :=
  guarded (.malloc s.vars.buffer_size) (fun r => decide (r.ret = 0)) (fun _ => -1)
      (fun _ v => v) s fun s =>
    checked (.fi_cq_open .txcq) (fun r v => { v with txcq := r.val }) s fun s =>
    checked (.fi_cq_open .rxcq) (fun r v => { v with rxcq := r.val }) s fun s =>
    guarded .epoll_create1 (fun r => decide (r.ret < 0)) (fun r => -r.errno)
        (fun r v => { v with epfd := r.ret }) s fun s =>
    match call (.fi_control_getwait s.vars.rxcq) s with
    | none => none
    | some (g1, s) =>
      if g1.ret ≠ 0 then some (g1.ret, s)
      else
        guarded (.epoll_ctl_add s.vars.epfd g1.val s.vars.rxcq) (fun r => decide (r.ret ≠ 0))
            (fun r => -r.errno) (fun _ v => v) s fun s =>
        match call (.fi_control_getwait s.vars.txcq) s with
        | none => none
        | some (g2, s) =>
          if g2.ret ≠ 0 then some (g2.ret, s)
          else
            guarded (.epoll_ctl_add s.vars.epfd g2.val s.vars.txcq)
                (fun r => decide (r.ret ≠ 0)) (fun r => -r.errno) (fun _ v => v) s fun s =>
            checked (.fi_mr_reg s.vars.buffer_size) (fun _ v => v) s fun s =>
            checked (.fi_endpoint info) (fun r v => { v with ep := r.val }) s fun s =>
            some (0, s)

/-- `bind_ep_res` (lines 156-182). -/
def bind_ep_res (s : State) : Option (Int × State) :=
  checked .fi_ep_bind_eq (fun _ v => v) s fun s =>
  checked (.fi_ep_bind .txcq) (fun _ v => v) s fun s =>
  ret_of (.fi_ep_bind .rxcq) s

/-- `server_listen` (lines 184-230). -/
def server_listen (s : State) : Option (Int × State) :=
  checked .fi_getinfo (fun r v => { v with fi := r.val }) s fun s =>
  checked .fi_fabric (fun _ v => v) s fun s =>
  checked .fi_passive_ep (fun _ v => v) s fun s =>
  on_success (alloc_cm_res s) fun s =>
  checked .fi_pep_bind (fun _ v => v) s fun s =>
  checked .fi_listen (fun _ v => v) s fun s =>
  some (0, s)

/-- The label `err` of `server_connect` (lines 293-296): reject the request
`info`, release it and return `ret`. -/
def err (info : Nat) (ret : Int) (s : State) : Option (Int × State) :=
  some (ret, emit (.fi_freeinfo info) (emit (.fi_reject info) s))

/-- The idiom `ret = f(...); if (ret) goto err;` of `server_connect`, followed
by the rest `k`. -/
def or_goto_err (info : Nat) (x : Option (Int × State))
    (k : State → Option (Int × State)) : Option (Int × State) :=
  match x with
  | none => none
  | some (ret, s) => if ret ≠ 0 then err info ret s else k s

/-- The end of `server_connect` (lines 270-296): wait for the connection of the
request `info` to be established. -/
def wait_connected (C : Consts) (E : Errno) (info : Nat) (s : State) :
    Option (Int × State) :=
  match call .fi_eq_sread s with
  | none => none
  | some (r, s1) =>
    if r.ret ≠ C.sizeof_entry then
      err info (int_of_ssize_t r.ret) (emit (.FT_PROCESS_EQ_ERR r.ret) s1)
    else if r.event ≠ C.FI_CONNECTED ∨ r.fid ≠ s1.vars.ep then
      err info (-E.FI_EOTHER) s1
    else
      some (0, emit (.fi_freeinfo info) s1)

/-- `server_connect` (lines 232-297).  `entry.info` is taken to point to an
`fi_info`, as the code takes it. -/
def server_connect (C : Consts) (E : Errno) (s : State) : Option (Int × State) :=
  match call .fi_eq_sread s with
  | none => none
  | some (r, s1) =>
    if r.ret ≠ C.sizeof_entry then
      some (int_of_ssize_t r.ret, emit (.FT_PROCESS_EQ_ERR r.ret) s1)
    else
      let info := r.info
      if r.event ≠ C.FI_CONNREQ then err info (-E.FI_EOTHER) s1
      else
        or_goto_err info (ret_of (.fi_domain info) s1) fun s2 =>
        or_goto_err info (alloc_ep_res info s2) fun s3 =>
        or_goto_err info (bind_ep_res s3) fun s4 =>
        or_goto_err info (ret_of .fi_accept s4) fun s5 =>
        wait_connected C E info s5

/-- `client_connect` (lines 299-362). -/
def client_connect (C : Consts) (E : Errno) (s : State) : Option (Int × State) :=
  checked .fi_getinfo (fun r v => { v with fi := r.val }) s fun s =>
  checked .fi_fabric (fun _ v => v) s fun s =>
  checked (.fi_domain s.vars.fi) (fun _ v => v) s fun s =>
  on_success (alloc_cm_res s) fun s =>
  on_success (alloc_ep_res s.vars.fi s) fun s =>
  on_success (bind_ep_res s) fun s =>
  checked .fi_connect (fun _ v => v) s fun s =>
  match call .fi_eq_sread s with
  | none => none
  | some (r, s1) =>
    if r.ret ≠ C.sizeof_entry then
      some (int_of_ssize_t r.ret, emit (.FT_PROCESS_EQ_ERR r.ret) s1)
    else if r.event ≠ C.FI_CONNECTED ∨ r.fid ≠ s1.vars.ep then
      some (-E.FI_EOTHER, s1)
    else some (0, s1)

/-- The part of `send_recv` that both roles share: wait on the epoll set,
compare the `data.ptr` of the event with the address of the queue `q` of the
role (which is `own`), and read one entry of that queue (lines 383-400 for the
client, 415-430 for the server).  `TEMP_FAILURE_RETRY` is a macro of the C
library; the answer is the one it ends with. -/
def wait_and_read (q : CQ) (own : Nat) (s : State) : Option (Int × State) :=
  match call (.epoll_wait s.vars.epfd) s with
  | none => none
  | some (ev, s1) =>
    if ev.ret < 0 then some (-ev.errno, s1)
    else
      let s2 := if ev.fid ≠ own then emit .unexpected_event s1 else s1
      match call (.fi_cq_sread q) s2 with
      | none => none
      | some (r, s3) =>
        if r.ret < 0 then some (r.ret, emit (.FT_PROCESS_CQ_ERR q) s3)
        else some (0, s3)

/-- `send_recv` (lines 364-434); `sizeof("Hello World!")` is 13. -/
def send_recv (s : State) : Option (Int × State) :=
  if s.vars.dst_addr then
    checked (.fi_send 13) (fun _ v => v) s fun s1 =>
      wait_and_read .txcq s1.vars.txcq s1
  else
    checked (.fi_recv s.vars.buffer_size) (fun _ v => v) s fun s1 =>
      wait_and_read .rxcq s1.vars.rxcq s1

/-- The end of `main` (lines 474-486): connect, exchange the data, shut down. -/
def connect_and_exchange (C : Consts) (E : Errno) (s : State) : Option (Int × State) :=
  match (if s.vars.dst_addr then client_connect C E s else server_connect C E s) with
  | none => none
  | some (ret, s1) =>
    if ret ≠ 0 then some (-ret, s1)
    else
      match send_recv s1 with
      | none => none
      | some (ret2, s2) =>
        some (ret2, emit (.close s2.vars.epfd) (emit .ft_free_res (emit .fi_shutdown s2)))

/-- `main` (lines 436-487) from the allocation of `hints` on; `vars.dst_addr`
holds `opts.dst_addr` as the option loop leaves it and `help` tells whether the
loop met `-h` or an unknown option.  The answer to `fi_allocinfo` is 0 for
`NULL`. -/
def main (C : Consts) (E : Errno) (help : Bool) (s : State) : Option (Int × State) :=
  match call .fi_allocinfo s with
  | none => none
  | some (r, s1) =>
    if r.ret = 0 then some (EXIT_FAILURE, s1)
    else if help then some (EXIT_FAILURE, emit .usage s1)
    else if ¬ s1.vars.dst_addr then
      match server_listen s1 with
      | none => none
      | some (ret, s2) =>
        if ret ≠ 0 then some (-ret, s2) else connect_and_exchange C E s2
    else connect_and_exchange C E s1

/-- A state for examples: the given role and script, a buffer of 64 bytes,
nothing called yet. -/
def example_state (dst : Bool) (script : List Reply) : State :=
  { script := script, trace := [],
    vars := { dst_addr := dst, buffer_size := 64, fi := 0, ep := 0, txcq := 0, rxcq := 0,
              epfd := 0 } }

/-- An answer that only returns `ret`. -/
def ans (ret : Int) : Reply :=
  { ret := ret, val := 0, event := 0, fid := 0, info := 0, errno := 0 }

/-- An answer that returns 0 and stores the object or descriptor `val`. -/
def obj (val : Nat) : Reply :=
  { ret := 0, val := val, event := 0, fid := 0, info := 0, errno := 0 }

/-- The answer of `fi_eq_sread` for a full entry (16 bytes) with the given
event number, `fid` and `info`. -/
def cm_event (event fid info : Nat) : Reply :=
  { ret := 16, val := 0, event := event, fid := fid, info := info, errno := 0 }

/-- The answer of `epoll_wait` for one event whose `data.ptr` is `tag`. -/
def woken (tag : Nat) : Reply :=
  { ret := 1, val := 0, event := 0, fid := tag, info := 0, errno := 0 }

/-- Answers with which `alloc_ep_res` succeeds: the block of `malloc`, the send
queue at 1, the receive queue at 2, the epoll set 5, the wait descriptors 10
(receive queue) and 11 (send queue), the registration, the endpoint at 3. -/
def script_alloc_ep : List Reply :=
  [ans 1, obj 1, obj 2, ans 5, obj 10, ans 0, obj 11, ans 0, ans 0, obj 3]

/-- Answers with which `client_connect` succeeds. -/
def script_client_connect : List Reply :=
  [obj 90, ans 0, ans 0, ans 0] ++ script_alloc_ep ++
    [ans 0, ans 0, ans 0, ans 0, cm_event 2 3 0]

end MsgEpoll

/-! ## Theorems -/

theorem call_cons (c : Call) (s : State) (r : Reply) (rest : List Reply)
    (h : s.script = r :: rest) : call c s = some (r, advance s rest [c]) := by
  unfold call advance
  rw [h]

theorem size_t_of_int_nonneg (i : Int) (h0 : 0 ≤ i) (h1 : i < 2 ^ 64) :
    ((size_t_of_int i : Nat) : Int) = i := by
  unfold size_t_of_int
  rw [Int.emod_eq_of_lt h0 h1]
  exact Int.toNat_of_nonneg h0

theorem advance_advance (s : State) (r1 r2 : List Reply) (c1 c2 : List Call) :
    advance (advance s r1 c1) r2 c2 = advance s r2 (c1 ++ c2) := by
  simp [advance]

theorem emit_advance (s : State) (r1 : List Reply) (c1 : List Call) (c : Call) :
    emit c (advance s r1 c1) = advance s r1 (c1 ++ [c]) := by
  simp [advance, emit]

@[simp] theorem advance_script (s : State) (r : List Reply) (c : List Call) :
    (advance s r c).script = r := rfl

@[simp] theorem advance_trace (s : State) (r : List Reply) (c : List Call) :
    (advance s r c).trace = s.trace ++ c := rfl

@[simp] theorem advance_opts (s : State) (r : List Reply) (c : List Call) :
    (advance s r c).opts = s.opts := rfl

@[simp] theorem advance_max_inject_size (s : State) (r : List Reply) (c : List Call) :
    (advance s r c).max_inject_size = s.max_inject_size := rfl

@[simp] theorem advance_remote_fi_addr (s : State) (r : List Reply) (c : List Call) :
    (advance s r c).remote_fi_addr = s.remote_fi_addr := rfl

@[simp] theorem advance_rx_size (s : State) (r : List Reply) (c : List Call) :
    (advance s r c).rx_size = s.rx_size := rfl

@[simp] theorem advance_tx_buf (s : State) (r : List Reply) (c : List Call) :
    (advance s r c).tx_buf = s.tx_buf := rfl

@[simp] theorem deliver_script (r : Reply) (s : State) : (deliver r s).script = s.script := rfl

@[simp] theorem deliver_trace (r : Reply) (s : State) : (deliver r s).trace = s.trace := rfl

@[simp] theorem deliver_opts (r : Reply) (s : State) : (deliver r s).opts = s.opts := rfl

@[simp] theorem deliver_max_inject_size (r : Reply) (s : State) :
    (deliver r s).max_inject_size = s.max_inject_size := rfl

@[simp] theorem deliver_remote_fi_addr (r : Reply) (s : State) :
    (deliver r s).remote_fi_addr = s.remote_fi_addr := rfl

@[simp] theorem deliver_rx_size (r : Reply) (s : State) : (deliver r s).rx_size = s.rx_size := rfl

@[simp] theorem deliver_tx_buf (r : Reply) (s : State) : (deliver r s).tx_buf = s.tx_buf := rfl

theorem getD_append_bytes (l1 l2 : Bytes) (i : Nat) :
    (l1 ++ l2).getD i 0 = if i < l1.length then l1.getD i 0 else l2.getD (i - l1.length) 0 := by
  by_cases h : i < l1.length
  · rw [if_pos h, List.getD_append _ _ _ _ h]
  · rw [if_neg h, List.getD_append_right _ _ _ _ (not_lt.mp h)]

theorem length_memcpy (dst : Bytes) (off : Nat) (src : Bytes) (n : Nat) :
    (memcpy dst off src n).length = dst.length := by
  simp [memcpy]

theorem getD_memcpy (dst : Bytes) (off : Nat) (src : Bytes) (n i : Nat) :
    (memcpy dst off src n).getD i 0 =
      if i < dst.length then
        (if off ≤ i ∧ i < off + n then src.getD (i - off) 0 else dst.getD i 0)
      else 0 := by
  unfold memcpy
  by_cases h : i < dst.length
  · simp [List.getD_eq_getElem?_getD, List.getElem?_map, List.getElem?_range, h]
  · have h2 : (List.range dst.length)[i]? = none :=
      List.getElem?_eq_none (by simp; omega)
    simp [List.getD_eq_getElem?_getD, List.getElem?_map, h, h2]

theorem length_read_bytes (src : Bytes) (off n : Nat) : (read_bytes src off n).length = n := by
  simp [read_bytes]

theorem read_bytes_eq (src : Bytes) (off : Nat) (l : Bytes)
    (h : ∀ i, i < l.length → src.getD (off + i) 0 = l.getD i 0) :
    read_bytes src off l.length = l := by
  apply List.ext_getElem
  · simp [read_bytes]
  · intro i h1 h2
    have := h i h2
    simp [read_bytes, List.getD_eq_getElem?_getD] at this ⊢
    rw [this]
    simp [h2]

theorem take_eq_read_bytes (l : Bytes) (m : Nat) (h : m ≤ l.length) :
    l.take m = read_bytes l 0 m := by
  apply List.ext_getElem
  · simp [read_bytes, h]
  · intro i h1 h2
    simp [read_bytes, List.getD_eq_getElem?_getD]
    simp at h1
    have : i < l.length := by omega
    simp [this]

theorem length_le_bytes (k n : Nat) : (le_bytes k n).length = k := by
  induction k generalizing n with
  | zero => rfl
  | succ k ih => simp [le_bytes, ih]

theorem le_value_le_bytes (k n : Nat) : le_value (le_bytes k n) = n % 256 ^ k := by
  induction k generalizing n with
  | zero => simp [le_bytes, le_value, Nat.mod_one]
  | succ k ih =>
    simp only [le_bytes, le_value, ih]
    rw [pow_succ, mul_comm (256 ^ k) 256, Nat.mod_mul]

theorem length_size_t_bytes (H : ByteOrder) (n : Nat) : (size_t_bytes H n).length = 8 := by
  cases H <;> simp [size_t_bytes, length_le_bytes]

theorem size_t_value_bytes (H : ByteOrder) (n : Nat) (h : n < 2 ^ 64) :
    size_t_value H (size_t_bytes H n) = n := by
  cases H <;> simp [size_t_value, size_t_bytes, le_value_le_bytes] <;> omega

namespace Pingpong

/-- The polling loop on a script that starts with answers `-FI_EAGAIN` and then
has an answer `c` that is not `-FI_EAGAIN`. -/
theorem recv_xfer_loop_retries (E : Errno) (retries : List Reply) :
    ∀ (fuel : Nat) (s : State) (c : Reply) (rest : List Reply),
      (∀ r ∈ retries, r.ret = -E.FI_EAGAIN) → c.ret ≠ -E.FI_EAGAIN →
      s.script = retries ++ c :: rest → retries.length < fuel →
      recv_xfer_loop E fuel s =
        if c.ret < 0 then
          some ((true, c.ret),
            advance s rest (List.replicate (retries.length + 1) (.fi_cq_read .rxcq 1) ++
              if c.ret = -E.FI_EAVAIL then [.cq_readerr .rxcq] else []))
        else
          some ((false, c.ret), deliver c
            (advance s rest (List.replicate (retries.length + 1) (.fi_cq_read .rxcq 1)))) := by
  induction retries with
  | nil =>
    intro fuel s c rest _ hc hs hf
    obtain ⟨f, rfl⟩ : ∃ f, fuel = f + 1 := ⟨fuel - 1, by simp at hf; omega⟩
    simp only [List.nil_append] at hs
    simp only [recv_xfer_loop, call_cons _ s c rest hs]
    by_cases hneg : c.ret < 0
    · rw [if_pos ⟨hneg, hc⟩, if_pos hneg]
      by_cases hav : c.ret = -E.FI_EAVAIL
      · rw [if_pos hav, if_pos hav, emit_advance]
        rfl
      · rw [if_neg hav, if_neg hav]
        simp
    · rw [if_neg (fun h => hneg h.1), if_neg hc, if_neg hneg]
      rfl
  | cons r retries ih =>
    intro fuel s c rest hr hc hs hf
    obtain ⟨f, rfl⟩ : ∃ f, fuel = f + 1 := ⟨fuel - 1, by simp at hf; omega⟩
    have hr0 : r.ret = -E.FI_EAGAIN := hr r (List.mem_cons_self _ _)
    have hr1 : ∀ x ∈ retries, x.ret = -E.FI_EAGAIN :=
      fun x hx => hr x (List.mem_cons_of_mem _ hx)
    simp only [List.cons_append] at hs
    simp only [recv_xfer_loop, call_cons _ s r _ hs]
    have hf1 : retries.length < f := by simp at hf; omega
    rw [if_neg (by simp [hr0]), if_pos hr0,
      ih f (advance s (retries ++ c :: rest) [.fi_cq_read .rxcq 1]) c rest hr1 hc rfl hf1]
    simp [advance_advance, List.replicate_succ]

theorem recv_xfer_completes (E : Errno) (size : Int) (s : State) (retries : List Reply)
    (c f : Reply) (rest : List Reply) (hr : ∀ r ∈ retries, r.ret = -E.FI_EAGAIN)
    (hc : c.ret ≠ -E.FI_EAGAIN) (hs : s.script = retries ++ c :: f :: rest)
    (hpos : 0 ≤ c.ret) :
    recv_xfer E size s = some (f.ret,
      advance (deliver c (advance s (f :: rest)
          (List.replicate (retries.length + 1) (.fi_cq_read .rxcq 1)))) rest
        [.fi_recv s.rx_size s.remote_fi_addr]) := by
  unfold recv_xfer
  rw [recv_xfer_loop_retries E retries s.script.length s c (f :: rest) hr hc hs (by simp [hs]),
    if_neg (not_lt.mpr hpos)]
  simp only
  rw [call_cons _ _ f rest (by simp)]
  simp

theorem send_xfer_fits (E : Errno) (size : Int) (s : State) (r : Reply) (rest : List Reply)
    (h : size ≤ s.max_inject_size) (hs : s.script = r :: rest) :
    send_xfer E size s = some (r.ret, advance s rest
      [.fi_inject (s.tx_buf.take (size_t_of_int size)) (size_t_of_int size)
        s.remote_fi_addr]) := by
  have h2 : ¬ size > s.max_inject_size := not_lt.mpr h
  simp [send_xfer, h2, call_cons _ s r rest hs]

theorem send_xfer_too_large (E : Errno) (size : Int) (s : State)
    (h : size > s.max_inject_size) : send_xfer E size s = some (-E.FI_EINVAL, s) := by
  simp [send_xfer, h]

theorem int_of_size_t_small (n : Nat) (h : n < 2 ^ 31) :
    int_of_size_t (n % 2 ^ 64) = (n : Int) := by
  have h1 : n % 2 ^ 64 = n := Nat.mod_eq_of_lt (by omega)
  have h2 : n % 2 ^ 32 = n := Nat.mod_eq_of_lt (by omega)
  unfold int_of_size_t
  rw [h1, h2, if_pos h]

theorem size_t_of_int_natCast (n : Nat) (h : n < 2 ^ 64) : size_t_of_int (n : Int) = n := by
  have := size_t_of_int_nonneg (n : Int) (by omega) (by exact_mod_cast h)
  exact_mod_cast this

theorem pack_local_addr_tx_buf (H : ByteOrder) (s : State) (a : Bytes)
    (hlen : s.addrlen = a.length) (hloc : s.local_addr = a)
    (htx : 8 + a.length ≤ s.tx_buf.length) :
    (pack_local_addr H s).tx_buf.take (8 + a.length) = size_t_bytes H a.length ++ a := by
  have hl : (size_t_bytes H a.length ++ a).length = 8 + a.length := by
    simp [length_size_t_bytes]
  rw [take_eq_read_bytes _ _ (by simp [pack_local_addr, length_memcpy, htx]), ← hl]
  apply read_bytes_eq
  intro i hi
  rw [hl] at hi
  simp only [pack_local_addr, hlen, hloc, getD_memcpy, length_memcpy, getD_append_bytes,
    length_size_t_bytes, zero_add]
  have h1 : i < s.tx_buf.length := by omega
  by_cases h8 : i < 8
  · simp [h1, h8]
  · simp [h1, h8, not_lt.mp h8]
    intro h9
    omega

theorem deliver_rx_buf_getD (w : Reply) (t : State) (i : Nat)
    (h1 : w.out.length ≤ t.rx_size) (h2 : t.rx_size ≤ t.rx_buf.length)
    (hi : i < w.out.length) : (deliver w t).rx_buf.getD i 0 = w.out.getD i 0 := by
  simp only [deliver, getD_memcpy, Nat.min_eq_left h1]
  have h3 : i < t.rx_buf.length := by omega
  simp [h3, hi]

/-- C5: let `a` be the local address blob and `n` its length, with `8 + n` at
most `max_inject_size` (an `int`) and at most the size of `tx_buf`.  The message
`init_av` builds on the initiator (lines 262-263) and sends (line 264) is one
`fi_inject` of exactly `8 + n` bytes: the 8 bytes of `n` in the byte order of
the host followed by the `n` bytes of `a`.  When that message has landed in the
receive buffer of the responder (of `rx_size ≥ 8 + n` bytes), the statements of
`init_av` that parse it (lines 279-281) leave `addrlen = n` and a remote address
equal to `a`. -/
theorem addr_exchange_round_trip (E : Errno) (H : ByteOrder) (a : Bytes) (s : State)
    (r : Reply) (rest : List Reply)
    (hlen : s.addrlen = a.length) (hloc : s.local_addr = a)
    (hmax : ((8 + a.length : Nat) : Int) ≤ s.max_inject_size)
    (hint : s.max_inject_size < 2 ^ 31)
    (htx : 8 + a.length ≤ s.tx_buf.length) (hs : s.script = r :: rest) :
    send_xfer E (int_of_size_t ((8 + (pack_local_addr H s).addrlen) % 2 ^ 64))
        (pack_local_addr H s)
      = some (r.ret, advance (pack_local_addr H s) rest
          [.fi_inject (size_t_bytes H a.length ++ a) (8 + a.length) s.remote_fi_addr]) ∧
    (size_t_bytes H a.length ++ a).length = 8 + a.length ∧
    ∀ (t : State) (w : Reply), w.out = size_t_bytes H a.length ++ a →
      8 + a.length ≤ t.rx_size → t.rx_size ≤ t.rx_buf.length →
      (unpack_remote_addr H (deliver w t)).addrlen = a.length ∧
      (unpack_remote_addr H (deliver w t)).remote_addr = a := by
  have hn : 8 + a.length < 2 ^ 31 := by
    have : ((8 + a.length : Nat) : Int) < 2 ^ 31 := lt_of_le_of_lt hmax hint
    exact_mod_cast this
  have hl : (size_t_bytes H a.length ++ a).length = 8 + a.length := by
    simp [length_size_t_bytes]
  refine ⟨?_, hl, ?_⟩
  · have h1 : (pack_local_addr H s).addrlen = a.length := hlen
    have h2 : (pack_local_addr H s).max_inject_size = s.max_inject_size := rfl
    have h3 : (pack_local_addr H s).script = r :: rest := hs
    have h4 : (pack_local_addr H s).remote_fi_addr = s.remote_fi_addr := rfl
    rw [h1, int_of_size_t_small _ hn]
    have h5 := send_xfer_fits E ((8 + a.length : Nat) : Int) (pack_local_addr H s) r rest
      (by rw [h2]; exact hmax) h3
    rw [h5, size_t_of_int_natCast _ (by omega), pack_local_addr_tx_buf H s a hlen hloc htx, h4]
  · intro t w hw hrx hbuf
    have hwl : w.out.length = 8 + a.length := by rw [hw, hl]
    have hget : ∀ i, i < 8 + a.length →
        (deliver w t).rx_buf.getD i 0 = (size_t_bytes H a.length ++ a).getD i 0 := by
      intro i hi
      rw [deliver_rx_buf_getD w t i (by omega) hbuf (by omega), hw]
    have h8 : read_bytes (deliver w t).rx_buf 0 8 = size_t_bytes H a.length := by
      have := read_bytes_eq (deliver w t).rx_buf 0 (size_t_bytes H a.length) (by
        intro i hi
        rw [length_size_t_bytes] at hi
        rw [zero_add, hget i (by omega), getD_append_bytes, length_size_t_bytes, if_pos hi])
      rwa [length_size_t_bytes] at this
    have hv : size_t_value H (read_bytes (deliver w t).rx_buf 0 8) = a.length := by
      rw [h8, size_t_value_bytes H _ (by omega)]
    refine ⟨hv, ?_⟩
    show read_bytes (deliver w t).rx_buf 8
      (size_t_value H (read_bytes (deliver w t).rx_buf 0 8)) = a
    rw [hv]
    apply read_bytes_eq
    intro i hi
    rw [hget (8 + i) (by omega), getD_append_bytes, length_size_t_bytes,
      if_neg (by omega), Nat.add_sub_cancel_left]

theorem addr_exchange_round_trip_witness :
    send_xfer linux_errno
        (int_of_size_t ((8 + (pack_local_addr .little
          (example_addr_state true [⟨0, 0, []⟩])).addrlen) % 2 ^ 64))
        (pack_local_addr .little (example_addr_state true [⟨0, 0, []⟩]))
      = some (0, advance (pack_local_addr .little (example_addr_state true [⟨0, 0, []⟩])) []
          [.fi_inject ([4, 0, 0, 0, 0, 0, 0, 0] ++ [1, 2, 3, 4]) 12 7]) ∧
    (unpack_remote_addr .little (deliver ⟨0, 0, [4, 0, 0, 0, 0, 0, 0, 0, 1, 2, 3, 4]⟩
      (example_state false 64 []))).addrlen = 4 ∧
    (unpack_remote_addr .little (deliver ⟨0, 0, [4, 0, 0, 0, 0, 0, 0, 0, 1, 2, 3, 4]⟩
      (example_state false 64 []))).remote_addr = [1, 2, 3, 4] :=
  ⟨(addr_exchange_round_trip linux_errno .little [1, 2, 3, 4]
      (example_addr_state true [⟨0, 0, []⟩]) ⟨0, 0, []⟩ [] rfl rfl (by decide) (by decide)
      (by decide) rfl).1,
   (addr_exchange_round_trip linux_errno .little [1, 2, 3, 4]
      (example_addr_state true [⟨0, 0, []⟩]) ⟨0, 0, []⟩ [] rfl rfl (by decide) (by decide)
      (by decide) rfl).2.2 (example_state false 64 [])
        ⟨0, 0, [4, 0, 0, 0, 0, 0, 0, 0, 1, 2, 3, 4]⟩ rfl (by decide) (by decide)⟩

theorem recv_msg_cons (s : State) (rcv w : Reply) (rest : List Reply)
    (hs : s.script = rcv :: w :: rest) :
    recv_msg s =
      if rcv.ret ≠ 0 then some (rcv.ret, advance s (w :: rest) [.fi_recv s.rx_size 0])
      else some (w.ret, deliver w (advance s rest
        [.fi_recv s.rx_size 0, .ft_wait_for_comp .rxcq 1])) := by
  unfold recv_msg
  rw [call_cons _ s rcv (w :: rest) hs]
  by_cases h : rcv.ret ≠ 0
  · simp [h]
  · simp only [h, if_false]
    rw [call_cons _ _ w rest (by simp), advance_advance]
    rfl

theorem init_av_initiator (E : Errno) (H : ByteOrder) (s : State)
    (g1 g2 ins inj rcv ack f : Reply) (rest : List Reply)
    (hE : E.FI_EINVAL ≠ 0) (hd : s.opts.dst_addr = true)
    (hs : s.script = g1 :: g2 :: ins :: inj :: rcv :: ack :: f :: rest) :
    let n := g1.val % 2 ^ 64
    let addrlen := g2.val % 2 ^ 64
    let size := int_of_size_t ((8 + addrlen) % 2 ^ 64)
    let data := (memcpy (memcpy s.tx_buf 0 (size_t_bytes H addrlen) 8) 8 (g2.out.take n)
      addrlen).take (size_t_of_int size)
    let c1 := Call.fi_getname 0
    let c2 := Call.fi_getname n
    let c3 := Call.fi_av_insert s.remote_addr 1
    let c4 := Call.fi_inject data (size_t_of_int size) ins.val
    let c5 := Call.fi_recv s.rx_size 0
    let c6 := Call.ft_wait_for_comp .rxcq 1
    let c7 := Call.fi_recv s.rx_size ins.val
    (init_av E H s).map (fun p => (p.1, p.2.trace)) = some (
      if g1.ret ≠ -E.FI_ETOOSMALL then (g1.ret, s.trace ++ [c1])
      else if g2.ret ≠ 0 then (g2.ret, s.trace ++ [c1, c2])
      else if ins.ret ≠ 1 then (ins.ret, s.trace ++ [c1, c2, c3])
      else if size > s.max_inject_size then (-E.FI_EINVAL, s.trace ++ [c1, c2, c3])
      else if inj.ret ≠ 0 then (inj.ret, s.trace ++ [c1, c2, c3, c4])
      else if rcv.ret ≠ 0 then (rcv.ret, s.trace ++ [c1, c2, c3, c4, c5])
      else if ack.ret ≠ 0 then (ack.ret, s.trace ++ [c1, c2, c3, c4, c5, c6])
      else (f.ret, s.trace ++ [c1, c2, c3, c4, c5, c6, c7])) := by
  intro n addrlen size data c1 c2 c3 c4 c5 c6 c7
  unfold init_av
  rw [if_pos hd, call_cons _ _ g1 _ (show ({ s with addrlen := 0 } : State).script = _ from hs)]
  simp only
  by_cases h1 : g1.ret ≠ -E.FI_ETOOSMALL
  · simp [h1, c1, advance]
  rw [if_neg h1, if_neg h1]
  rw [call_cons _ _ g2 (ins :: inj :: rcv :: ack :: f :: rest) (by simp)]
  simp only
  by_cases h2 : g2.ret ≠ 0
  · simp [h2, c1, c2, n, advance]
  rw [if_neg h2, if_neg h2]
  unfold av_insert_then
  rw [call_cons _ _ ins (inj :: rcv :: ack :: f :: rest) (by simp)]
  simp only
  by_cases h3 : ins.ret ≠ 1
  · simp [h3, c1, c2, c3, n, advance]
  rw [if_neg h3, if_neg h3]
  by_cases h4 : size > s.max_inject_size
  · rw [if_pos h4, send_xfer_too_large]
    · simp [on_success, hE, advance, pack_local_addr, c1, c2, c3, n]
    · exact h4
  rw [if_neg h4, send_xfer_fits E _ _ inj (rcv :: ack :: f :: rest)]
  rotate_left
  · exact not_lt.mp h4
  · rfl
  by_cases h5 : inj.ret ≠ 0
  · rw [if_pos h5]
    simp [on_success, h5, advance, pack_local_addr, c1, c2, c3, c4, n, data, size, addrlen]
  rw [if_neg h5]
  simp only [on_success, h5, if_false]
  rw [recv_msg_cons _ rcv ack (f :: rest) rfl]
  by_cases h6 : rcv.ret ≠ 0
  · rw [if_pos h6, if_pos h6]
    simp [h6, advance, pack_local_addr, c1, c2, c3, c4, c5, n, data, size, addrlen]
  rw [if_neg h6, if_neg h6]
  by_cases h7 : ack.ret ≠ 0
  · rw [if_pos h7]
    simp [h7, advance, pack_local_addr, c1, c2, c3, c4, c5, c6, n, data, size, addrlen]
  rw [if_neg h7]
  simp only [h7, if_false, post_first_recv, ret_of]
  rw [call_cons _ _ f rest rfl]
  simp [advance, deliver, pack_local_addr, c1, c2, c3, c4, c5, c6, c7, n, data, size, addrlen]

theorem size_t_of_int_16 : size_t_of_int 16 = 16 := by decide

theorem init_av_responder (E : Errno) (H : ByteOrder) (s : State)
    (rcv msg ins inj f : Reply) (rest : List Reply)
    (hE : E.FI_EINVAL ≠ 0) (hd : s.opts.dst_addr = false)
    (hs : s.script = rcv :: msg :: ins :: inj :: f :: rest) :
    let c1 := Call.fi_recv s.rx_size 0
    let c2 := Call.ft_wait_for_comp .rxcq 1
    let c3 := Call.fi_av_insert (unpack_remote_addr H (deliver msg s)).remote_addr 1
    let c4 := Call.fi_inject (s.tx_buf.take 16) 16 ins.val
    let c5 := Call.fi_recv s.rx_size ins.val
    (init_av E H s).map (fun p => (p.1, p.2.trace)) = some (
      if rcv.ret ≠ 0 then (rcv.ret, s.trace ++ [c1])
      else if msg.ret ≠ 0 then (msg.ret, s.trace ++ [c1, c2])
      else if ins.ret ≠ 1 then (ins.ret, s.trace ++ [c1, c2, c3])
      else if 16 > s.max_inject_size then (-E.FI_EINVAL, s.trace ++ [c1, c2, c3])
      else if inj.ret ≠ 0 then (inj.ret, s.trace ++ [c1, c2, c3, c4])
      else (f.ret, s.trace ++ [c1, c2, c3, c4, c5])) := by
  intro c1 c2 c3 c4 c5
  unfold init_av
  rw [if_neg (by simp [hd]), recv_msg_cons s rcv msg _ hs]
  by_cases h1 : rcv.ret ≠ 0
  · simp [h1, on_success, c1]
  rw [if_neg h1, if_neg h1]
  by_cases h2 : msg.ret ≠ 0
  · simp [h2, on_success, c1, c2]
  rw [if_neg h2]
  simp only [on_success, h2, if_false]
  unfold av_insert_then
  rw [call_cons _ _ ins (inj :: f :: rest) rfl]
  simp only
  by_cases h3 : ins.ret ≠ 1
  · simp [h3, c1, c2, c3, advance, deliver, unpack_remote_addr]
  rw [if_neg h3, if_neg h3]
  by_cases h4 : 16 > s.max_inject_size
  · rw [if_pos h4, send_xfer_too_large]
    · simp [hE, advance, deliver, unpack_remote_addr, c1, c2, c3]
    · exact h4
  rw [if_neg h4, send_xfer_fits E _ _ inj (f :: rest)]
  rotate_left
  · exact not_lt.mp h4
  · rfl
  by_cases h5 : inj.ret ≠ 0
  · rw [if_pos h5]
    simp [h5, advance, deliver, unpack_remote_addr, c1, c2, c3, c4, size_t_of_int_16]
  rw [if_neg h5]
  simp only [h5, if_false, post_first_recv, ret_of]
  rw [call_cons _ _ f rest rfl]
  simp [advance, deliver, unpack_remote_addr, c1, c2, c3, c4, c5, size_t_of_int_16]

/-- C6 (amended): the calls of `init_av` and its result, for every script.
On the initiator the calls are, in this order, the two `fi_getname` calls, the
insertion of the remote address, one `fi_inject` of the message carrying the
local address, one `fi_recv` and one wait for one completion (the
acknowledgment), and last one further `fi_recv` from the peer.  On the
responder they are one `fi_recv`, one wait for one completion, the insertion of
the parsed address, one `fi_inject` of 16 bytes, and last one further
`fi_recv`.  The whole sequence is performed when every call succeeds (the first
`fi_getname` returning `-FI_ETOOSMALL`, the insertion 1, the others 0) and the
message fits `max_inject_size`; at the first step that fails, by the result of
its call or by the size check of `send_xfer`, `init_av` returns that step's
value and performs no later step. -/
theorem init_av_handshake_order (E : Errno) (H : ByteOrder) (s : State)
    (hE : E.FI_EINVAL ≠ 0) :
    (s.opts.dst_addr = true → ∀ (g1 g2 ins inj rcv ack f : Reply) (rest : List Reply),
      s.script = g1 :: g2 :: ins :: inj :: rcv :: ack :: f :: rest →
      let n := g1.val % 2 ^ 64
      let addrlen := g2.val % 2 ^ 64
      let size := int_of_size_t ((8 + addrlen) % 2 ^ 64)
      let data := (memcpy (memcpy s.tx_buf 0 (size_t_bytes H addrlen) 8) 8 (g2.out.take n)
        addrlen).take (size_t_of_int size)
      let c1 := Call.fi_getname 0
      let c2 := Call.fi_getname n
      let c3 := Call.fi_av_insert s.remote_addr 1
      let c4 := Call.fi_inject data (size_t_of_int size) ins.val
      let c5 := Call.fi_recv s.rx_size 0
      let c6 := Call.ft_wait_for_comp .rxcq 1
      let c7 := Call.fi_recv s.rx_size ins.val
      (init_av E H s).map (fun p => (p.1, p.2.trace)) = some (
        if g1.ret ≠ -E.FI_ETOOSMALL then (g1.ret, s.trace ++ [c1])
        else if g2.ret ≠ 0 then (g2.ret, s.trace ++ [c1, c2])
        else if ins.ret ≠ 1 then (ins.ret, s.trace ++ [c1, c2, c3])
        else if size > s.max_inject_size then (-E.FI_EINVAL, s.trace ++ [c1, c2, c3])
        else if inj.ret ≠ 0 then (inj.ret, s.trace ++ [c1, c2, c3, c4])
        else if rcv.ret ≠ 0 then (rcv.ret, s.trace ++ [c1, c2, c3, c4, c5])
        else if ack.ret ≠ 0 then (ack.ret, s.trace ++ [c1, c2, c3, c4, c5, c6])
        else (f.ret, s.trace ++ [c1, c2, c3, c4, c5, c6, c7]))) ∧
    (s.opts.dst_addr = false → ∀ (rcv msg ins inj f : Reply) (rest : List Reply),
      s.script = rcv :: msg :: ins :: inj :: f :: rest →
      let c1 := Call.fi_recv s.rx_size 0
      let c2 := Call.ft_wait_for_comp .rxcq 1
      let c3 := Call.fi_av_insert (unpack_remote_addr H (deliver msg s)).remote_addr 1
      let c4 := Call.fi_inject (s.tx_buf.take 16) 16 ins.val
      let c5 := Call.fi_recv s.rx_size ins.val
      (init_av E H s).map (fun p => (p.1, p.2.trace)) = some (
        if rcv.ret ≠ 0 then (rcv.ret, s.trace ++ [c1])
        else if msg.ret ≠ 0 then (msg.ret, s.trace ++ [c1, c2])
        else if ins.ret ≠ 1 then (ins.ret, s.trace ++ [c1, c2, c3])
        else if 16 > s.max_inject_size then (-E.FI_EINVAL, s.trace ++ [c1, c2, c3])
        else if inj.ret ≠ 0 then (inj.ret, s.trace ++ [c1, c2, c3, c4])
        else (f.ret, s.trace ++ [c1, c2, c3, c4, c5]))) :=
  ⟨fun hd g1 g2 ins inj rcv ack f rest hs =>
      init_av_initiator E H s g1 g2 ins inj rcv ack f rest hE hd hs,
   fun hd rcv msg ins inj f rest hs =>
      init_av_responder E H s rcv msg ins inj f rest hE hd hs⟩

theorem init_av_handshake_order_witness :
    (init_av linux_errno .little (example_state true 64
        [⟨-257, 4, []⟩, ⟨0, 4, [1, 2, 3, 4]⟩, ⟨1, 5, []⟩, ⟨0, 0, []⟩, ⟨0, 0, []⟩, ⟨0, 0, []⟩,
         ⟨0, 0, []⟩])).map (fun p => (p.1, p.2.trace))
      = some (0, [.fi_getname 0, .fi_getname 4, .fi_av_insert [] 1,
          .fi_inject [4, 0, 0, 0, 0, 0, 0, 0, 1, 2, 3, 4] 12 5, .fi_recv 64 0,
          .ft_wait_for_comp .rxcq 1, .fi_recv 64 5]) ∧
    (init_av linux_errno .little (example_state false 64
        [⟨0, 0, []⟩, ⟨0, 0, [4, 0, 0, 0, 0, 0, 0, 0, 1, 2, 3, 4]⟩, ⟨1, 5, []⟩, ⟨0, 0, []⟩,
         ⟨0, 0, []⟩])).map (fun p => (p.1, p.2.trace))
      = some (0, [.fi_recv 64 0, .ft_wait_for_comp .rxcq 1, .fi_av_insert [1, 2, 3, 4] 1,
          .fi_inject (List.replicate 16 0) 16 5, .fi_recv 64 5]) :=
  ⟨(init_av_handshake_order linux_errno .little (example_state true 64
        [⟨-257, 4, []⟩, ⟨0, 4, [1, 2, 3, 4]⟩, ⟨1, 5, []⟩, ⟨0, 0, []⟩, ⟨0, 0, []⟩, ⟨0, 0, []⟩,
         ⟨0, 0, []⟩]) (by decide)).1 rfl _ _ _ _ _ _ _ [] rfl,
   (init_av_handshake_order linux_errno .little (example_state false 64
        [⟨0, 0, []⟩, ⟨0, 0, [4, 0, 0, 0, 0, 0, 0, 0, 1, 2, 3, 4]⟩, ⟨1, 5, []⟩, ⟨0, 0, []⟩,
         ⟨0, 0, []⟩]) (by decide)).2 rfl _ _ _ _ _ [] rfl⟩

/-- C6, counterexample: on a responder whose `max_inject_size` is 8, with every
provider call succeeding (the receive is posted, the completion arrives with
the address message, the insertion returns 1, and the answers 0 that stand
ready for the later calls are never asked for), `init_av` returns `-FI_EINVAL`
after the insertion: no acknowledgment is sent and the standing receive is not
posted. -/
theorem init_av_stops_without_failed_call :
    (init_av linux_errno .little (example_state false 8
        [⟨0, 0, []⟩, ⟨0, 0, [4, 0, 0, 0, 0, 0, 0, 0, 1, 2, 3, 4]⟩, ⟨1, 5, []⟩, ⟨0, 0, []⟩,
         ⟨0, 0, []⟩])).map (fun p => (p.1, p.2.trace, p.2.script))
      = some (-22, [.fi_recv 64 0, .ft_wait_for_comp .rxcq 1, .fi_av_insert [1, 2, 3, 4] 1],
          [⟨0, 0, []⟩, ⟨0, 0, []⟩]) := by
  decide

/-- C2: `send_xfer(size)` returns `-FI_EINVAL` and leaves the state as it is (no
call is made) when `size > max_inject_size`; otherwise it makes exactly one
`fi_inject` call, of the first `(size_t) size` bytes of `tx_buf` to
`remote_fi_addr`, and returns the value `fi_inject` returned; `(size_t) size`
is `size` itself for every non-negative `int`. -/
theorem send_xfer_contract (E : Errno) (size : Int) (s : State) :
    (size > s.max_inject_size → send_xfer E size s = some (-E.FI_EINVAL, s)) ∧
    (size ≤ s.max_inject_size → ∀ r rest, s.script = r :: rest →
      send_xfer E size s = some (r.ret, advance s rest
        [.fi_inject (s.tx_buf.take (size_t_of_int size)) (size_t_of_int size)
          s.remote_fi_addr])) ∧
    (0 ≤ size → size < 2 ^ 31 → ((size_t_of_int size : Nat) : Int) = size) := by
  refine ⟨send_xfer_too_large E size s, ?_, ?_⟩
  · intro h r rest hs
    exact send_xfer_fits E size s r rest h hs
  · intro h0 h1
    exact size_t_of_int_nonneg size h0 (lt_trans h1 (by norm_num))

theorem send_xfer_contract_witness :
    (example_state true 64 [⟨0, 0, []⟩]).max_inject_size < 100 ∧
    send_xfer linux_errno 100 (example_state true 64 [⟨0, 0, []⟩])
      = some (-linux_errno.FI_EINVAL, example_state true 64 [⟨0, 0, []⟩]) ∧
    send_xfer linux_errno 16 (example_state true 64 [⟨0, 0, []⟩])
      = some (0, advance (example_state true 64 [⟨0, 0, []⟩]) []
          [.fi_inject (List.replicate 16 0) 16 7]) :=
  ⟨by decide,
   (send_xfer_contract linux_errno 100 (example_state true 64 [⟨0, 0, []⟩])).1 (by decide),
   (send_xfer_contract linux_errno 16 (example_state true 64 [⟨0, 0, []⟩])).2.1 (by decide)
      ⟨0, 0, []⟩ [] rfl⟩

/-- C4: when `opts.transfer_size > max_inject_size`, `run_test` returns 0 and the
state is unchanged: no call at all is made (no sync exchange, no `fi_inject`,
no `fi_cq_read`, no `fi_recv`, no clock reading, no performance report) and no
answer of the provider is consumed. -/
theorem run_test_skips_oversized (E : Errno) (s : State)
    (h : s.opts.transfer_size > s.max_inject_size) : run_test E s = some (0, s) := by
  simp [run_test, h]

theorem run_test_skips_oversized_witness :
    run_test linux_errno (example_state true 4 []) = some (0, example_state true 4 []) :=
  run_test_skips_oversized linux_errno (example_state true 4 []) (by decide)

theorem frame_refl (s : State) : frame s s := ⟨rfl, rfl, rfl, rfl, rfl⟩

theorem send_xfer_ok (E : Errno) (size : Int) (s0 s : State) (j : Reply) (rest : List Reply)
    (hf : frame s0 s) (h : size ≤ s0.max_inject_size) (hs : s.script = j :: rest)
    (hj : j.ret = 0) :
    ∃ s1, send_xfer E size s = some (0, s1) ∧ s1.script = rest ∧
      s1.trace = s.trace ++ [.fi_inject (s0.tx_buf.take (size_t_of_int size))
        (size_t_of_int size) s0.remote_fi_addr] ∧ frame s0 s1 := by
  obtain ⟨h1, h2, h3, h4, h5⟩ := hf
  refine ⟨advance s rest [.fi_inject (s.tx_buf.take (size_t_of_int size))
    (size_t_of_int size) s.remote_fi_addr], ?_, rfl, ?_, ?_⟩
  · rw [send_xfer_fits E size s j rest (by rw [h2]; exact h) hs, hj]
  · simp [h3, h5]
  · exact ⟨h1, h2, h3, h4, h5⟩

theorem recv_xfer_ok (E : Errno) (hE : 0 < E.FI_EAGAIN) (size : Int) (s0 s : State)
    (retries : List Reply) (c f : Reply) (rest : List Reply) (hf : frame s0 s)
    (hr : ∀ x ∈ retries, x.ret = -E.FI_EAGAIN) (hc : 0 ≤ c.ret) (hz : f.ret = 0)
    (hs : s.script = retries ++ c :: f :: rest) :
    ∃ s1, recv_xfer E size s = some (0, s1) ∧ s1.script = rest ∧
      s1.trace = s.trace ++ (List.replicate (retries.length + 1) (.fi_cq_read .rxcq 1) ++
        [.fi_recv s0.rx_size s0.remote_fi_addr]) ∧ frame s0 s1 := by
  obtain ⟨h1, h2, h3, h4, h5⟩ := hf
  refine ⟨advance (deliver c (advance s (f :: rest)
      (List.replicate (retries.length + 1) (.fi_cq_read .rxcq 1)))) rest
    [.fi_recv s.rx_size s.remote_fi_addr], ?_, rfl, ?_, ?_⟩
  · rw [recv_xfer_completes E size s retries c f rest hr (by omega) hs hc, hz]
  · simp [h4, h5]
  · exact ⟨h1, h2, h3, h4, h5⟩

theorem exchange_ok (E : Errno) (hE : 0 < E.FI_EAGAIN) (size : Int) (s0 s : State)
    (r : Round) (rest : List Reply) (hf : frame s0 s) (h : size ≤ s0.max_inject_size)
    (hok : r.ok E) (hs : s.script = r.answers s0.opts.dst_addr ++ rest) :
    ∃ s1 s2, (if s.opts.dst_addr then send_xfer E size s else recv_xfer E size s)
        = some (0, s1) ∧
      (if s1.opts.dst_addr then recv_xfer E size s1 else send_xfer E size s1)
        = some (0, s2) ∧
      s2.script = rest ∧ s2.trace = s.trace ++ r.calls s0 size ∧ frame s0 s2 ∧
      s1.opts = s0.opts := by
  obtain ⟨hj, hr, hc, hz⟩ := hok
  have hd : s.opts.dst_addr = s0.opts.dst_addr := by rw [hf.1]
  cases hdst : s0.opts.dst_addr with
  | true =>
    rw [hdst] at hs hd
    simp only [Round.answers, if_true] at hs
    obtain ⟨s1, e1, sc1, tr1, f1⟩ := send_xfer_ok E size s0 s r.inject _ hf h hs hj
    obtain ⟨s2, e2, sc2, tr2, f2⟩ := recv_xfer_ok E hE size s0 s1 r.retries r.comp r.recv rest
      f1 hr hc hz (by rw [sc1]; simp)
    refine ⟨s1, s2, ?_, ?_, sc2, ?_, f2, f1.1⟩
    · rw [hd, if_pos rfl, e1]
    · rw [f1.1, hdst, if_pos rfl, e2]
    · rw [tr2, tr1]
      simp [Round.calls, hdst]
  | false =>
    rw [hdst] at hs hd
    simp only [Round.answers, Bool.false_eq_true, if_false] at hs
    obtain ⟨s1, e1, sc1, tr1, f1⟩ := recv_xfer_ok E hE size s0 s r.retries r.comp r.recv
      (r.inject :: rest) hf hr hc hz (by rw [hs]; simp)
    obtain ⟨s2, e2, sc2, tr2, f2⟩ := send_xfer_ok E size s0 s1 r.inject rest f1 h sc1 hj
    refine ⟨s1, s2, ?_, ?_, sc2, ?_, f2, f1.1⟩
    · rw [hd, if_neg (by simp), e1]
    · rw [f1.1, hdst, if_neg (by simp), e2]
    · rw [tr2, tr1]
      simp [Round.calls, hdst]

theorem sync_test_ok (E : Errno) (hE : 0 < E.FI_EAGAIN) (s : State)
    (r : Round) (rest : List Reply) (h : 16 ≤ s.max_inject_size)
    (hok : r.ok E) (hs : s.script = r.answers s.opts.dst_addr ++ rest) :
    ∃ s2, sync_test E s = some (0, s2) ∧
      s2.script = rest ∧ s2.trace = s.trace ++ r.calls s 16 ∧ frame s s2 := by
  obtain ⟨s1, s2, e1, e2, sc, tr, f, -⟩ :=
    exchange_ok E hE 16 s s r rest (frame_refl s) h hok hs
  refine ⟨s2, ?_, sc, tr, f⟩
  unfold sync_test
  rw [e1]
  simp only [ne_eq, not_true_eq_false, if_false]
  exact e2

theorem run_test_loop_ok (E : Errno) (hE : 0 < E.FI_EAGAIN) (s0 : State) (rounds : List Round) :
    ∀ (s : State) (rest : List Reply), frame s0 s →
      s0.opts.transfer_size ≤ s0.max_inject_size → (∀ r ∈ rounds, r.ok E) →
      s.script = all_answers s0.opts.dst_addr rounds ++ rest →
      ∃ s2, run_test_loop E rounds.length s = some (0, s2) ∧ s2.script = rest ∧
        s2.trace = s.trace ++ all_calls s0 s0.opts.transfer_size rounds ∧ frame s0 s2 := by
  induction rounds with
  | nil =>
    intro s rest hf _ _ hs
    exact ⟨s, rfl, by simpa [all_answers] using hs, by simp [all_calls], hf⟩
  | cons r rounds ih =>
    intro s rest hf hfit hok hs
    simp only [all_answers, List.append_assoc] at hs
    obtain ⟨s1, s2, e1, e2, sc, tr, f, o1⟩ := exchange_ok E hE s0.opts.transfer_size s0 s r _
      hf hfit (hok r (List.mem_cons_self _ _)) hs
    obtain ⟨s3, e3, sc3, tr3, f3⟩ := ih s2 rest f hfit
      (fun x hx => hok x (List.mem_cons_of_mem _ hx)) sc
    refine ⟨s3, ?_, sc3, ?_, f3⟩
    · simp only [List.length_cons, run_test_loop]
      rw [hf.1] at e1
      rw [hf.1, e1]
      simp only [ne_eq, not_true_eq_false, if_false]
      rw [o1] at e2
      rw [o1, e2]
      simp only [ne_eq, not_true_eq_false, if_false]
      exact e3
    · rw [tr3, tr]
      simp [all_calls]

theorem all_calls_counts (s : State) (size : Int) (rounds : List Round) :
    (all_calls s size rounds).countP is_fi_inject = rounds.length ∧
    (all_calls s size rounds).countP is_fi_recv = rounds.length := by
  induction rounds with
  | nil => simp [all_calls]
  | cons r rounds ih =>
    have h1 : (r.calls s size).countP is_fi_inject = 1 ∧
        (r.calls s size).countP is_fi_recv = 1 := by
      unfold Round.calls
      cases s.opts.dst_addr <;>
        simp [List.countP_cons, List.countP_append, List.countP_replicate, is_fi_inject,
          is_fi_recv]
    simp only [all_calls, List.countP_append, List.length_cons, h1.1, h1.2, ih.1, ih.2]
    omega

/-- C7 (amended): let `N` be a natural number, `transfer_size ≤ max_inject_size`
and `16 ≤ max_inject_size`, and let every provider call succeed (`sync` holds
the answers during the sync exchange, `rounds` those of the `N` iterations).
Then `run_test` returns 0 and its calls are, in this order: one exchange of 16
bytes (the sync), the reading of the start time, `N` exchanges of
`transfer_size` bytes, the reading of the end time, and the report with size
`transfer_size`, iteration count `N` and multiplier 2.  Each exchange is one
`send_xfer` (one `fi_inject`) and one `recv_xfer` (the reads of the receive
queue and one `fi_recv`), the send first on the side that has a destination
address, the receive first on the other side; so the calls between the two
readings of the time hold exactly `N` `fi_inject` and `N` `fi_recv`. -/
theorem run_test_exchanges (E : Errno) (hE : 0 < E.FI_EAGAIN) (s : State) (sync : Round)
    (rounds : List Round) (rest : List Reply)
    (hfit : s.opts.transfer_size ≤ s.max_inject_size) (h16 : 16 ≤ s.max_inject_size)
    (hN : s.opts.iterations = rounds.length) (hsync : sync.ok E)
    (hrounds : ∀ r ∈ rounds, r.ok E)
    (hs : s.script = sync.answers s.opts.dst_addr ++
      (all_answers s.opts.dst_addr rounds ++ rest)) :
    ∃ s2, run_test E s = some (0, s2) ∧ s2.script = rest ∧
      s2.trace = s.trace ++ (sync.calls s 16 ++ [.clock_gettime_start] ++
        all_calls s s.opts.transfer_size rounds ++
        [.clock_gettime_end,
         if s.opts.machr then .show_perf_mr s.opts.transfer_size rounds.length 2
         else .show_perf s.opts.transfer_size rounds.length 2]) ∧
      (all_calls s s.opts.transfer_size rounds).countP is_fi_inject = rounds.length ∧
      (all_calls s s.opts.transfer_size rounds).countP is_fi_recv = rounds.length := by
  have hcount := all_calls_counts s s.opts.transfer_size rounds
  obtain ⟨s1, e1, sc1, tr1, f1⟩ := sync_test_ok E hE s sync _ h16 hsync hs
  have f1c : frame s (emit .clock_gettime_start s1) := f1
  obtain ⟨s2, e2, sc2, tr2, f2⟩ := run_test_loop_ok E hE s rounds
    (emit .clock_gettime_start s1) rest f1c hfit hrounds sc1
  have hn : s1.opts.iterations.toNat = rounds.length := by
    rw [f1.1, hN]
    simp
  have ho : (emit .clock_gettime_end s2).opts = s.opts := f2.1
  unfold run_test
  rw [if_neg (not_lt.mpr hfit), e1]
  simp only [ne_eq, not_true_eq_false, if_false]
  rw [hn, e2]
  simp only [ne_eq, not_true_eq_false, if_false]
  rw [ho, hN]
  cases hm : s.opts.machr with
  | true =>
    refine ⟨emit (.show_perf_mr s.opts.transfer_size rounds.length 2)
      (emit .clock_gettime_end s2), by simp, sc2, ?_, hcount⟩
    simp [emit, tr2, tr1]
  | false =>
    refine ⟨emit (.show_perf s.opts.transfer_size rounds.length 2)
      (emit .clock_gettime_end s2), by simp, sc2, ?_, hcount⟩
    simp [emit, tr2, tr1]

theorem run_test_exchanges_witness :
    ∃ s2, run_test linux_errno (example_state true 64
        [⟨0, 0, []⟩, ⟨-11, 0, []⟩, ⟨1, 0, []⟩, ⟨0, 0, []⟩,
         ⟨0, 0, []⟩, ⟨1, 0, []⟩, ⟨0, 0, []⟩,
         ⟨0, 0, []⟩, ⟨-11, 0, []⟩, ⟨-11, 0, []⟩, ⟨1, 0, []⟩, ⟨0, 0, []⟩]) = some (0, s2) ∧
      s2.script = [] ∧
      s2.trace = [] ++
        ([.fi_inject (List.replicate 16 0) 16 7, .fi_cq_read .rxcq 1, .fi_cq_read .rxcq 1,
          .fi_recv 64 7] ++ [.clock_gettime_start] ++
         [.fi_inject (List.replicate 8 0) 8 7, .fi_cq_read .rxcq 1, .fi_recv 64 7,
          .fi_inject (List.replicate 8 0) 8 7, .fi_cq_read .rxcq 1, .fi_cq_read .rxcq 1,
          .fi_cq_read .rxcq 1, .fi_recv 64 7] ++
         [.clock_gettime_end, .show_perf 8 2 2]) ∧
      (all_calls (example_state true 64
        [⟨0, 0, []⟩, ⟨-11, 0, []⟩, ⟨1, 0, []⟩, ⟨0, 0, []⟩,
         ⟨0, 0, []⟩, ⟨1, 0, []⟩, ⟨0, 0, []⟩,
         ⟨0, 0, []⟩, ⟨-11, 0, []⟩, ⟨-11, 0, []⟩, ⟨1, 0, []⟩, ⟨0, 0, []⟩]) 8
        [⟨⟨0, 0, []⟩, [], ⟨1, 0, []⟩, ⟨0, 0, []⟩⟩,
         ⟨⟨0, 0, []⟩, [⟨-11, 0, []⟩, ⟨-11, 0, []⟩], ⟨1, 0, []⟩, ⟨0, 0, []⟩⟩]).countP
        is_fi_inject = 2 ∧
      (all_calls (example_state true 64
        [⟨0, 0, []⟩, ⟨-11, 0, []⟩, ⟨1, 0, []⟩, ⟨0, 0, []⟩,
         ⟨0, 0, []⟩, ⟨1, 0, []⟩, ⟨0, 0, []⟩,
         ⟨0, 0, []⟩, ⟨-11, 0, []⟩, ⟨-11, 0, []⟩, ⟨1, 0, []⟩, ⟨0, 0, []⟩]) 8
        [⟨⟨0, 0, []⟩, [], ⟨1, 0, []⟩, ⟨0, 0, []⟩⟩,
         ⟨⟨0, 0, []⟩, [⟨-11, 0, []⟩, ⟨-11, 0, []⟩], ⟨1, 0, []⟩, ⟨0, 0, []⟩⟩]).countP
        is_fi_recv = 2 :=
  run_test_exchanges linux_errno (by decide) (example_state true 64
      [⟨0, 0, []⟩, ⟨-11, 0, []⟩, ⟨1, 0, []⟩, ⟨0, 0, []⟩,
       ⟨0, 0, []⟩, ⟨1, 0, []⟩, ⟨0, 0, []⟩,
       ⟨0, 0, []⟩, ⟨-11, 0, []⟩, ⟨-11, 0, []⟩, ⟨1, 0, []⟩, ⟨0, 0, []⟩])
    ⟨⟨0, 0, []⟩, [⟨-11, 0, []⟩], ⟨1, 0, []⟩, ⟨0, 0, []⟩⟩
    [⟨⟨0, 0, []⟩, [], ⟨1, 0, []⟩, ⟨0, 0, []⟩⟩,
     ⟨⟨0, 0, []⟩, [⟨-11, 0, []⟩, ⟨-11, 0, []⟩], ⟨1, 0, []⟩, ⟨0, 0, []⟩⟩]
    [] (by decide) (by decide) rfl (by decide) (by decide) rfl

/-- C7, counterexample: with `transfer_size = max_inject_size = 8`, two
iterations and a provider whose every call succeeds, `run_test` returns
`-FI_EINVAL` from the sync exchange: on the side with a destination address no
call at all is made, on the other side the sync receive is made and nothing
else; no timed exchange takes place and nothing is reported. -/
theorem run_test_sync_exceeds_inject_limit :
    (run_test linux_errno (example_state true 8
        [⟨0, 0, []⟩, ⟨1, 0, []⟩, ⟨0, 0, []⟩, ⟨0, 0, []⟩, ⟨1, 0, []⟩, ⟨0, 0, []⟩])).map
      (fun p => (p.1, p.2.trace)) = some (-22, []) ∧
    (run_test linux_errno (example_state false 8
        [⟨1, 0, []⟩, ⟨0, 0, []⟩, ⟨0, 0, []⟩, ⟨1, 0, []⟩, ⟨0, 0, []⟩, ⟨0, 0, []⟩])).map
      (fun p => (p.1, p.2.trace)) = some (-22, [.fi_cq_read .rxcq 1, .fi_recv 64 7]) := by
  decide

end Pingpong

namespace RmaTrigger

theorem on_success_some (x : Option (Int × State)) (k : State → Option (Int × State))
    (ret : Int) (s2 : State) (h : on_success x k = some (ret, s2)) :
    (∃ s1, x = some (0, s1) ∧ k s1 = some (ret, s2)) ∨ (x = some (ret, s2) ∧ ret ≠ 0) := by
  cases x with
  | none => simp [on_success] at h
  | some p =>
    obtain ⟨r, s1⟩ := p
    simp only [on_success] at h
    by_cases hr : r ≠ 0
    · rw [if_pos hr] at h
      simp only [Option.some.injEq, Prod.mk.injEq] at h
      obtain ⟨rfl, rfl⟩ := h
      exact Or.inr ⟨rfl, hr⟩
    · rw [if_neg hr] at h
      have : r = 0 := by simpa using hr
      subst this
      exact Or.inl ⟨s1, rfl, h⟩

theorem ret_of_some (c : Call) (s : State) (ret : Int) (s1 : State)
    (h : ret_of c s = some (ret, s1)) :
    ∃ r rest, s.script = r :: rest ∧ ret = r.ret ∧ s1 = advance s rest [c] := by
  unfold ret_of call at h
  cases hs : s.script with
  | nil => simp [hs] at h
  | cons r rest =>
    simp only [hs, Option.some.injEq, Prod.mk.injEq] at h
    exact ⟨r, rest, rfl, h.1.symm, h.2.symm⟩

theorem ret_of_buf (c : Call) (s : State) (ret : Int) (s1 : State)
    (h : ret_of c s = some (ret, s1)) : s1.buf = s.buf ∧ s1.opts = s.opts := by
  obtain ⟨r, rest, -, -, rfl⟩ := ret_of_some c s ret s1 h
  exact ⟨rfl, rfl⟩

theorem alloc_ep_res_buf (s : State) (s1 : State)
    (h : alloc_ep_res s = some (0, s1)) : s1.buf.length = 38 ∧ s1.opts = s.opts := by
  unfold alloc_ep_res call at h
  simp only at h
  cases hs : s.script with
  | nil => simp [hs] at h
  | cons r rest =>
    simp only [hs] at h
    by_cases hr : r.ret = 0
    · simp [hr] at h
    · rw [if_neg hr] at h
      rcases on_success_some _ _ _ _ h with ⟨a1, e1, h⟩ | ⟨-, h0⟩
      swap
      · exact absurd rfl h0
      rcases on_success_some _ _ _ _ h with ⟨a2, e2, h⟩ | ⟨-, h0⟩
      swap
      · exact absurd rfl h0
      rcases on_success_some _ _ _ _ h with ⟨a3, e3, h⟩ | ⟨-, h0⟩
      swap
      · exact absurd rfl h0
      rcases on_success_some _ _ _ _ h with ⟨a4, e4, h⟩ | ⟨-, h0⟩
      swap
      · exact absurd rfl h0
      rcases on_success_some _ _ _ _ h with ⟨a5, e5, h⟩ | ⟨-, h0⟩
      swap
      · exact absurd rfl h0
      simp only [Option.some.injEq, Prod.mk.injEq, true_and] at h
      subst h
      have b1 := ret_of_buf _ _ _ _ e1
      have b2 := ret_of_buf _ _ _ _ e2
      have b3 := ret_of_buf _ _ _ _ e3
      have b4 := ret_of_buf _ _ _ _ e4
      have b5 := ret_of_buf _ _ _ _ e5
      refine ⟨?_, ?_⟩
      · rw [b5.1, b4.1, b3.1, b2.1, b1.1]
        simp [read_bytes, strlen, welcome_text1, welcome_text2]
      · rw [b5.2, b4.2, b3.2, b2.2, b1.2]

theorem init_fabric_buf (s : State) (s1 : State)
    (h : init_fabric s = some (0, s1)) : s1.buf.length = 38 ∧ s1.opts = s.opts := by
  unfold init_fabric at h
  rcases on_success_some _ _ _ _ h with ⟨a1, e1, h⟩ | ⟨-, h0⟩
  swap
  · exact absurd rfl h0
  have b1 := ret_of_buf _ _ _ _ e1
  unfold call at h
  cases hs : a1.script with
  | nil => simp [hs] at h
  | cons r rest =>
    simp only [hs] at h
    by_cases hr : r.ret ≠ 0
    · rw [if_pos hr] at h
      simp only [Option.some.injEq, Prod.mk.injEq] at h
      exact absurd h.1 hr
    · rw [if_neg hr] at h
      rcases on_success_some _ _ _ _ h with ⟨a2, e2, h⟩ | ⟨-, h0⟩
      swap
      · exact absurd rfl h0
      rcases on_success_some _ _ _ _ h with ⟨a3, e3, h⟩ | ⟨-, h0⟩
      swap
      · exact absurd rfl h0
      rcases on_success_some _ _ _ _ h with ⟨a4, e4, h⟩ | ⟨-, h0⟩
      swap
      · exact absurd rfl h0
      rcases on_success_some _ _ _ _ h with ⟨a5, e5, h⟩ | ⟨-, h0⟩
      swap
      · exact absurd rfl h0
      have b2 := ret_of_buf _ _ _ _ e2
      have b3 := ret_of_buf _ _ _ _ e3
      have b4 := alloc_ep_res_buf _ _ e4
      have b5 := ret_of_buf _ _ _ _ e5
      have o2 : a2.opts = s.opts := by
        rw [b2.2]
        split <;> simp [b1.2]
      by_cases hd : a5.opts.dst_addr = true
      · rw [if_pos hd] at h
        cases hs5 : a5.script with
        | nil => simp [hs5] at h
        | cons r2 rest2 =>
          simp only [hs5] at h
          by_cases hr2 : r2.ret ≠ 1
          · rw [if_pos hr2] at h
            simp only [Option.some.injEq, Prod.mk.injEq] at h
            rw [← h.2]
            exact ⟨by simp [b5.1, b4.1], by simp [b5.2, b4.2, b3.2, o2]⟩
          · rw [if_neg hr2] at h
            simp only [Option.some.injEq, Prod.mk.injEq, true_and] at h
            rw [← h]
            exact ⟨by simp [b5.1, b4.1], by simp [b5.2, b4.2, b3.2, o2]⟩
      · rw [if_neg hd] at h
        simp only [Option.some.injEq, Prod.mk.injEq, true_and] at h
        rw [← h]
        exact ⟨by rw [b5.1, b4.1], by rw [b5.2, b4.2, b3.2, o2]⟩

theorem rma_write_cons (src size : Nat) (context : Context) (flags : Nat) (s : State)
    (r : Reply) (rest : List Reply) (hs : s.script = r :: rest) :
    rma_write src size context flags s = some (r.ret, advance s rest
      [.fi_writemsg ⟨⟨src, size⟩, 1, s.remote_fi_addr, ⟨0, size, 45678⟩, 1, context⟩ flags]) := by
  unfold rma_write
  simp only
  rw [call_cons _ s r rest hs]
  simp only [user_defined_key]
  by_cases h : r.ret ≠ 0
  · rw [if_pos h]
  · rw [if_neg h]
    have : r.ret = 0 := by simpa using h
    rw [this]

/-- C10: `rma_write(src, size, context, flags)` submits exactly one `fi_writemsg`
whose descriptor has one local iovec (base `src`, length `size`), one remote
iovec (address 0, length `size`, key 45678), destination `remote_fi_addr`, and
the given context and flags; it returns what `fi_writemsg` returned (0 for 0,
the error otherwise).  `rma_write_trigger(src, size, cntr, threshold)` submits
the same descriptor with the flags `FI_TRIGGER` and a context that holds a
threshold trigger on `cntr` with that threshold. -/
theorem rma_write_descriptor (src size : Nat) (context : Context) (flags : Nat) (s : State)
    (r : Reply) (rest : List Reply) (hs : s.script = r :: rest) :
    rma_write src size context flags s = some (r.ret, advance s rest
      [.fi_writemsg
        { msg_iov := { iov_base := src, iov_len := size }, iov_count := 1,
          addr := s.remote_fi_addr,
          rma_iov := { addr := 0, len := size, key := 45678 }, rma_iov_count := 1,
          context := context } flags]) ∧
    (r.ret = 0 → (rma_write src size context flags s).map Prod.fst = some 0) ∧
    ∀ (FI_TRIGGER : Nat) (cntr : Cntr) (threshold : Nat),
      rma_write_trigger FI_TRIGGER src size cntr threshold s = some (r.ret, advance s rest
        [.fi_writemsg
          { msg_iov := { iov_base := src, iov_len := size }, iov_count := 1,
            addr := s.remote_fi_addr,
            rma_iov := { addr := 0, len := size, key := 45678 }, rma_iov_count := 1,
            context := .FI_TRIGGER_THRESHOLD cntr threshold } FI_TRIGGER]) := by
  refine ⟨rma_write_cons src size context flags s r rest hs, ?_, ?_⟩
  · intro h0
    rw [rma_write_cons src size context flags s r rest hs, h0]
    simp
  · intro FI_TRIGGER cntr threshold
    exact rma_write_cons src size _ FI_TRIGGER s r rest hs

theorem rma_write_descriptor_witness :
    rma_write 19 19 .null 0 (example_state true 64 [⟨0, 0, []⟩]) =
      some (0, advance (example_state true 64 [⟨0, 0, []⟩]) []
        [.fi_writemsg ⟨⟨19, 19⟩, 1, 7, ⟨0, 19, 45678⟩, 1, .null⟩ 0]) :=
  (rma_write_descriptor 19 19 .null 0 (example_state true 64 [⟨0, 0, []⟩]) ⟨0, 0, []⟩ []
    rfl).1

theorem text_lengths : welcome_text1.length = 19 ∧ welcome_text2.length = 19 := by
  decide

theorem staged_buf (buf : Bytes) (h : buf.length = 38) :
    sprintf (sprintf buf 0 welcome_text1) (0 + strlen welcome_text1) welcome_text2
      = welcome_text1 ++ welcome_text2 := by
  have l1 := text_lengths.1
  have l2 := text_lengths.2
  have hl : (welcome_text1 ++ welcome_text2).length = 38 := by simp [l1, l2]
  have e : sprintf (sprintf buf 0 welcome_text1) (0 + strlen welcome_text1) welcome_text2
      = read_bytes (sprintf (sprintf buf 0 welcome_text1) (0 + strlen welcome_text1)
          welcome_text2) 0 38 := by
    rw [← take_eq_read_bytes _ _ (by simp [sprintf, length_memcpy, h])]
    exact (List.take_of_length_le (by simp [sprintf, length_memcpy, h])).symm
  rw [e, ← hl]
  apply read_bytes_eq
  intro i hi
  rw [hl] at hi
  simp only [sprintf, strlen, getD_memcpy, length_memcpy, getD_append_bytes, l1, l2, h,
    zero_add]
  by_cases h19 : i < 19
  · have h1 : ¬ 19 ≤ i := by omega
    have h2 : i < 20 := by omega
    simp [hi, h19, h1, h2]
  · have h19b : 19 ≤ i := by omega
    have h1 : i - 19 < 19 := by omega
    have h2 : i < 39 := by omega
    simp [hi, h19, h19b, h1, h2]

theorem ready_write1 (FI_TRIGGER dest : Nat) (f : Fabric) :
    ready FI_TRIGGER f (write1 dest, 0) = true := by
  simp [ready]

theorem ready_write2 (FI_TRIGGER dest : Nat) (hT : FI_TRIGGER ≠ 0) (f : Fabric) :
    ready FI_TRIGGER f (write2 dest, FI_TRIGGER) = decide (1 ≤ f.txcntr) := by
  simp [ready, write2, Fabric.cntr, hT]

theorem step_client_states (FI_TRIGGER dest : Nat) (hT : FI_TRIGGER ≠ 0)
    (client_buf region : Bytes) (a : Action) (x y : List (fi_msg_rma × Nat) × Fabric)
    (hx : x ∈ client_states FI_TRIGGER dest client_buf region)
    (h : step FI_TRIGGER a x = some y) :
    y ∈ client_states FI_TRIGGER dest client_buf region := by
  simp only [client_states, List.mem_cons, List.mem_singleton, List.not_mem_nil, or_false] at hx
  rcases hx with rfl | rfl | rfl | rfl | rfl
  · cases a with
    | submit =>
      simp only [step, Option.some.injEq] at h
      subst h
      simp [client_states, fabric_start]
    | execute i => simp [step, fabric_start] at h
  · cases a with
    | submit =>
      simp only [step, Option.some.injEq] at h
      subst h
      simp [client_states, fabric_start]
    | execute i =>
      rcases i with _ | i
      · simp [step, fabric_start, ready_write2 _ _ hT] at h
      · simp [step, fabric_start] at h
  · cases a with
    | submit => simp [step] at h
    | execute i =>
      rcases i with _ | _ | i
      · simp [step, fabric_start, ready_write2 _ _ hT] at h
      · simp only [step, fabric_start, List.get?, ready_write1, if_true,
          Option.some.injEq] at h
        subst h
        simp [client_states, fabric_start, List.eraseIdx]
      · simp [step, fabric_start] at h
  · cases a with
    | submit => simp [step] at h
    | execute i =>
      rcases i with _ | i
      · simp only [step, execute, fabric_start, List.get?, ready_write2 _ _ hT] at h
        simp only [zero_add, le_refl, decide_True, if_true, Option.some.injEq] at h
        subst h
        simp [client_states, fabric_start, execute, List.eraseIdx]
      · simp [step, execute, fabric_start] at h
  · cases a with
    | submit => simp [step] at h
    | execute i => simp [step, execute, fabric_start] at h

theorem run_schedule_client_states (FI_TRIGGER dest : Nat) (hT : FI_TRIGGER ≠ 0)
    (client_buf region : Bytes) (sched : List Action) :
    ∀ (x y : List (fi_msg_rma × Nat) × Fabric),
      x ∈ client_states FI_TRIGGER dest client_buf region →
      run_schedule FI_TRIGGER sched x = some y →
      y ∈ client_states FI_TRIGGER dest client_buf region := by
  induction sched with
  | nil =>
    intro x y hx h
    simp only [run_schedule, Option.some.injEq] at h
    exact h ▸ hx
  | cons a sched ih =>
    intro x y hx h
    simp only [run_schedule] at h
    cases hs : step FI_TRIGGER a x with
    | none => simp [hs] at h
    | some z =>
      simp only [hs] at h
      exact ih z y (step_client_states FI_TRIGGER dest hT client_buf region a x z hx hs) h

theorem staged_sources :
    read_bytes (welcome_text1 ++ welcome_text2) 0 19 = welcome_text1 ∧
    read_bytes (welcome_text1 ++ welcome_text2) 19 19 = welcome_text2 := by
  decide

theorem take_memcpy_zero (dst src : Bytes) (k n : Nat) (h1 : k ≤ dst.length) (h2 : k ≤ n)
    (h3 : k ≤ src.length) : (memcpy dst 0 src n).take k = src.take k := by
  rw [take_eq_read_bytes _ _ (by rw [length_memcpy]; exact h1), take_eq_read_bytes _ _ h3]
  have hl : (read_bytes src 0 k).length = k := length_read_bytes _ _ _
  conv_lhs => rw [← hl]
  apply read_bytes_eq
  intro i hi
  rw [hl] at hi
  have h4 : i < dst.length := by omega
  have h5 : i < n := by omega
  have h6 : i < src.length := by omega
  rw [zero_add, getD_memcpy, if_pos h4, if_pos ⟨Nat.zero_le _, by omega⟩]
  simp [read_bytes, List.getD_eq_getElem?_getD, hi, h6]

theorem client_states_order (FI_TRIGGER dest : Nat) (region : Bytes)
    (hr : 19 ≤ region.length) (y : List (fi_msg_rma × Nat) × Fabric)
    (hy : y ∈ client_states FI_TRIGGER dest (welcome_text1 ++ welcome_text2) region) :
    y.2.applied.map (fun m => read_bytes y.2.client_buf m.msg_iov.iov_base m.msg_iov.iov_len)
      = [welcome_text1, welcome_text2].take y.2.txcntr ∧
    (2 ≤ y.2.txcntr → y.2.region.take 19 = welcome_text2) := by
  simp only [client_states, List.mem_cons, List.mem_singleton, List.not_mem_nil, or_false] at hy
  rcases hy with rfl | rfl | rfl | rfl | rfl
  · simp [fabric_start]
  · simp [fabric_start]
  · simp [fabric_start]
  · simp [fabric_start, execute, write1, staged_sources.1]
  · refine ⟨by simp [fabric_start, execute, write1, write2, staged_sources.1,
      staged_sources.2], fun _ => ?_⟩
    simp only [execute, fabric_start, write1, write2, staged_sources.1, staged_sources.2]
    rw [take_memcpy_zero _ _ 19 19 (by simp [length_memcpy, hr]) (le_refl _)
      (by simp [text_lengths.2])]
    exact List.take_of_length_le (by simp [text_lengths.2])

theorem strncmp_eq_zero (n : Nat) : ∀ (a b : Bytes), a.take n = b.take n → strncmp n a b = 0 := by
  induction n with
  | zero => intro a b _; rfl
  | succ n ih =>
    intro a b h
    cases a with
    | nil =>
      cases b with
      | nil => simp [strncmp]
      | cons y b => simp at h
    | cons x a =>
      cases b with
      | nil => simp at h
      | cons y b =>
        simp only [List.take_succ_cons, List.cons.injEq] at h
        obtain ⟨rfl, h⟩ := h
        simp only [strncmp, List.headD_cons, ne_eq, not_true_eq_false, if_false, List.tail_cons]
        by_cases hx : x = 0
        · simp [hx]
        · simp [hx, ih a b h]

theorem server_check_ok (FI_TRIGGER : Nat) (t : State) (w : Reply) (rest : List Reply)
    (hd : t.opts.dst_addr = false) (hb : 19 ≤ t.buf.length) (hs : t.script = w :: rest)
    (hw : 0 ≤ w.ret) (hl : 19 ≤ w.out.length) (hout : w.out.take 19 = welcome_text2) :
    run_test_after_init FI_TRIGGER t
      = some (0, land w (advance t rest [.fi_cntr_wait .rxcntr 2 (-1)])) := by
  unfold run_test_after_init
  rw [if_neg (by simp [hd]), call_cons _ t w rest hs]
  simp only
  rw [if_neg (not_lt.mpr hw)]
  have h1 : (land w (advance t rest [.fi_cntr_wait .rxcntr 2 (-1)])).buf.take 19
      = (welcome_text2 ++ [0]).take 19 := by
    have : (welcome_text2 ++ [0]).take 19 = welcome_text2 := by decide
    rw [this, ← hout]
    exact take_memcpy_zero _ _ 19 _ hb hl hl
  have h2 : strlen welcome_text2 = 19 := text_lengths.2
  rw [h2, strncmp_eq_zero 19 _ _ h1]
  simp

theorem quiet_refl (s : State) : quiet_since s s := ⟨[], by simp, by simp⟩

theorem quiet_step (s0 s : State) (rest : List Reply) (c : Call) (hq : reads_cq c = false)
    (h : quiet_since s0 s) : quiet_since s0 (advance s rest [c]) := by
  obtain ⟨calls, e, hc⟩ := h
  refine ⟨calls ++ [c], by simp [e], ?_⟩
  intro x hx
  rcases List.mem_append.mp hx with h1 | h1
  · exact hc x h1
  · simp only [List.mem_singleton] at h1
    rw [h1]
    exact hq

theorem ret_of_quiet (s0 : State) (c : Call) (s : State) (ret : Int) (s1 : State)
    (h : ret_of c s = some (ret, s1)) (hq : reads_cq c = false) (hp : quiet_since s0 s) :
    quiet_since s0 s1 := by
  obtain ⟨r, rest, -, -, rfl⟩ := ret_of_some c s ret s1 h
  exact quiet_step s0 s rest c hq hp

theorem alloc_ep_res_quiet (s0 s s1 : State) (hp : quiet_since s0 s)
    (h : alloc_ep_res s = some (0, s1)) : quiet_since s0 s1 := by
  unfold alloc_ep_res call at h
  simp only at h
  cases hs : s.script with
  | nil => simp [hs] at h
  | cons r rest =>
    simp only [hs] at h
    by_cases hr : r.ret = 0
    · simp [hr] at h
    · rw [if_neg hr] at h
      rcases on_success_some _ _ _ _ h with ⟨a1, e1, h⟩ | ⟨-, h0⟩
      swap
      · exact absurd rfl h0
      rcases on_success_some _ _ _ _ h with ⟨a2, e2, h⟩ | ⟨-, h0⟩
      swap
      · exact absurd rfl h0
      rcases on_success_some _ _ _ _ h with ⟨a3, e3, h⟩ | ⟨-, h0⟩
      swap
      · exact absurd rfl h0
      rcases on_success_some _ _ _ _ h with ⟨a4, e4, h⟩ | ⟨-, h0⟩
      swap
      · exact absurd rfl h0
      rcases on_success_some _ _ _ _ h with ⟨a5, e5, h⟩ | ⟨-, h0⟩
      swap
      · exact absurd rfl h0
      simp only [Option.some.injEq, Prod.mk.injEq, true_and] at h
      subst h
      have q0 : quiet_since s0 (advance s rest [.malloc (strlen welcome_text1 +
          strlen welcome_text2)]) := quiet_step s0 s rest _ rfl hp
      have q1 := ret_of_quiet s0 _ _ _ _ e1 rfl q0
      have q2 := ret_of_quiet s0 _ _ _ _ e2 rfl q1
      have q3 := ret_of_quiet s0 _ _ _ _ e3 rfl q2
      have q4 := ret_of_quiet s0 _ _ _ _ e4 rfl q3
      exact ret_of_quiet s0 _ _ _ _ e5 rfl q4

theorem init_fabric_quiet (s s1 : State) (h : init_fabric s = some (0, s1)) :
    quiet_since s s1 := by
  unfold init_fabric at h
  rcases on_success_some _ _ _ _ h with ⟨a1, e1, h⟩ | ⟨-, h0⟩
  swap
  · exact absurd rfl h0
  have q1 := ret_of_quiet s _ _ _ _ e1 rfl (quiet_refl s)
  unfold call at h
  cases hs : a1.script with
  | nil => simp [hs] at h
  | cons r rest =>
    simp only [hs] at h
    by_cases hr : r.ret ≠ 0
    · rw [if_pos hr] at h
      simp only [Option.some.injEq, Prod.mk.injEq] at h
      exact absurd h.1 hr
    · rw [if_neg hr] at h
      rcases on_success_some _ _ _ _ h with ⟨a2, e2, h⟩ | ⟨-, h0⟩
      swap
      · exact absurd rfl h0
      rcases on_success_some _ _ _ _ h with ⟨a3, e3, h⟩ | ⟨-, h0⟩
      swap
      · exact absurd rfl h0
      rcases on_success_some _ _ _ _ h with ⟨a4, e4, h⟩ | ⟨-, h0⟩
      swap
      · exact absurd rfl h0
      rcases on_success_some _ _ _ _ h with ⟨a5, e5, h⟩ | ⟨-, h0⟩
      swap
      · exact absurd rfl h0
      have q1b : quiet_since s (advance a1 rest [.fi_getinfo]) :=
        quiet_step s a1 rest _ rfl q1
      have q2 : quiet_since s a2 := by
        refine ret_of_quiet s _ _ _ _ e2 rfl ?_
        split
        · exact q1b
        · exact q1b
      have q3 := ret_of_quiet s _ _ _ _ e3 rfl q2
      have q4 := alloc_ep_res_quiet s _ _ q3 e4
      have q5 := ret_of_quiet s _ _ _ _ e5 rfl q4
      by_cases hd : a5.opts.dst_addr = true
      · rw [if_pos hd] at h
        cases hs5 : a5.script with
        | nil => simp [hs5] at h
        | cons r2 rest2 =>
          simp only [hs5] at h
          have q6 : quiet_since s (advance a5 rest2 [.fi_av_insert a5.remote_addr 1]) :=
            quiet_step s a5 rest2 _ rfl q5
          by_cases hr2 : r2.ret ≠ 1
          · rw [if_pos hr2] at h
            simp only [Option.some.injEq, Prod.mk.injEq] at h
            rw [← h.2]
            exact q6
          · rw [if_neg hr2] at h
            simp only [Option.some.injEq, Prod.mk.injEq, true_and] at h
            rw [← h]
            exact q6
      · rw [if_neg hd] at h
        simp only [Option.some.injEq, Prod.mk.injEq, true_and] at h
        rw [← h]
        exact q5

theorem run_test_client (FI_TRIGGER : Nat) (s : State) (hd : s.opts.dst_addr = true)
    (hb : s.buf.length = 38) (w2 w1 wt : Reply) (rest : List Reply)
    (hs : s.script = w2 :: w1 :: wt :: rest) :
    run_test_after_init FI_TRIGGER s = some (
      if w2.ret ≠ 0 then
        (w2.ret, advance { s with buf := welcome_text1 ++ welcome_text2 } (w1 :: wt :: rest)
          [.fi_writemsg (write2 s.remote_fi_addr) FI_TRIGGER])
      else if w1.ret ≠ 0 then
        (w1.ret, advance { s with buf := welcome_text1 ++ welcome_text2 } (wt :: rest)
          [.fi_writemsg (write2 s.remote_fi_addr) FI_TRIGGER,
           .fi_writemsg (write1 s.remote_fi_addr) 0])
      else
        (wt.ret, advance { s with buf := welcome_text1 ++ welcome_text2 } rest
          [.fi_writemsg (write2 s.remote_fi_addr) FI_TRIGGER,
           .fi_writemsg (write1 s.remote_fi_addr) 0,
           .fi_cntr_wait .txcntr 2 (-1)])) := by
  unfold run_test_after_init
  rw [if_pos hd]
  simp only
  rw [staged_buf s.buf hb]
  have e1 : strlen welcome_text1 = 19 := text_lengths.1
  have e2 : strlen welcome_text2 = 19 := text_lengths.2
  rw [e1, e2]
  unfold rma_write_trigger
  rw [rma_write_cons _ _ _ _ _ w2 (w1 :: wt :: rest)
    (show ({ s with buf := welcome_text1 ++ welcome_text2 } : State).script = _ from hs)]
  by_cases h2 : w2.ret ≠ 0
  · rw [if_pos h2]
    simp [on_success, h2, write2]
  rw [if_neg h2]
  simp only [on_success, h2, if_false]
  rw [rma_write_cons _ _ _ _ _ w1 (wt :: rest) rfl]
  by_cases h1 : w1.ret ≠ 0
  · rw [if_pos h1]
    simp [h1, write1, write2, advance]
  rw [if_neg h1]
  simp only [h1, if_false, ret_of]
  rw [call_cons _ _ wt rest rfl]
  simp [write1, write2, advance]

theorem quiet_append (s0 s s1 : State) (calls : List Call) (hp : quiet_since s0 s)
    (ht : s1.trace = s.trace ++ calls) (hc : ∀ c ∈ calls, reads_cq c = false) :
    quiet_since s0 s1 := by
  obtain ⟨l, e, hl⟩ := hp
  refine ⟨l ++ calls, by rw [ht, e, List.append_assoc], ?_⟩
  intro x hx
  rcases List.mem_append.mp hx with h1 | h1
  · exact hl x h1
  · exact hc x h1

theorem run_test_of_init (FI_TRIGGER : Nat) (s0 s : State)
    (hinit : init_fabric s0 = some (0, s)) :
    run_test FI_TRIGGER s0 = run_test_after_init FI_TRIGGER s := by
  unfold run_test
  rw [hinit]
  simp [on_success]

/-- C9: on the client, once `init_fabric` has succeeded, `run_test` makes these
calls in this order and no others: first the triggered write of the 19 bytes at
`buf + 19` (the characters of `welcome_text2`), gated on `txcntr` reaching the
threshold 1; then the untriggered write of the 19 bytes at `buf` (the
characters of `welcome_text1`); then the wait on `txcntr` for the value 2 with
timeout -1.  When a submission fails, `run_test` returns its error and makes
no later call.  No call of the whole run reads a completion queue. -/
theorem client_submission_order (FI_TRIGGER : Nat) (s0 s : State)
    (hinit : init_fabric s0 = some (0, s)) (hd : s0.opts.dst_addr = true)
    (w2 w1 wt : Reply) (rest : List Reply) (hs : s.script = w2 :: w1 :: wt :: rest) :
    let c1 := Call.fi_writemsg
      { msg_iov := { iov_base := 19, iov_len := 19 }, iov_count := 1,
        addr := s.remote_fi_addr, rma_iov := { addr := 0, len := 19, key := 45678 },
        rma_iov_count := 1, context := .FI_TRIGGER_THRESHOLD .txcntr 1 } FI_TRIGGER
    let c2 := Call.fi_writemsg
      { msg_iov := { iov_base := 0, iov_len := 19 }, iov_count := 1,
        addr := s.remote_fi_addr, rma_iov := { addr := 0, len := 19, key := 45678 },
        rma_iov_count := 1, context := .null } 0
    let c3 := Call.fi_cntr_wait .txcntr 2 (-1)
    (run_test FI_TRIGGER s0).map (fun p => (p.1, p.2.trace, p.2.buf)) = some (
      if w2.ret ≠ 0 then (w2.ret, s.trace ++ [c1], welcome_text1 ++ welcome_text2)
      else if w1.ret ≠ 0 then (w1.ret, s.trace ++ [c1, c2], welcome_text1 ++ welcome_text2)
      else (wt.ret, s.trace ++ [c1, c2, c3], welcome_text1 ++ welcome_text2)) ∧
    read_bytes (welcome_text1 ++ welcome_text2) 19 19 = welcome_text2 ∧
    read_bytes (welcome_text1 ++ welcome_text2) 0 19 = welcome_text1 ∧
    ∀ ret s1, run_test FI_TRIGGER s0 = some (ret, s1) → quiet_since s0 s1 := by
  intro c1 c2 c3
  have hb := init_fabric_buf s0 s hinit
  have hq := init_fabric_quiet s0 s hinit
  have hd1 : s.opts.dst_addr = true := by rw [hb.2]; exact hd
  have hrun := run_test_client FI_TRIGGER s hd1 hb.1 w2 w1 wt rest hs
  rw [run_test_of_init FI_TRIGGER s0 s hinit, hrun]
  refine ⟨?_, staged_sources.2, staged_sources.1, ?_⟩
  · by_cases h2 : w2.ret ≠ 0
    · simp [h2, c1, write2, advance]
    · by_cases h1 : w1.ret ≠ 0
      · simp [h2, h1, c1, c2, write1, write2, advance]
      · simp [h2, h1, c1, c2, c3, write1, write2, advance]
  · intro ret s1 h
    simp only [Option.some.injEq] at h
    by_cases h2 : w2.ret ≠ 0
    · rw [if_pos h2] at h
      simp only [Prod.mk.injEq] at h
      exact quiet_append s0 s s1 _ hq (by rw [← h.2]; rfl) (by simp [reads_cq])
    · rw [if_neg h2] at h
      by_cases h1 : w1.ret ≠ 0
      · rw [if_pos h1] at h
        simp only [Prod.mk.injEq] at h
        exact quiet_append s0 s s1 _ hq (by rw [← h.2]; rfl) (by simp [reads_cq])
      · rw [if_neg h1] at h
        simp only [Prod.mk.injEq] at h
        exact quiet_append s0 s s1 _ hq (by rw [← h.2]; rfl) (by simp [reads_cq])

theorem client_submission_order_witness :
    (run_test 1 (example_state true 64 (script_rma true [⟨0, 0, []⟩, ⟨0, 0, []⟩, ⟨0, 0, []⟩]))).map
        (fun p => (p.1, p.2.trace, p.2.buf))
      = some (0, (rma_ready true [⟨0, 0, []⟩, ⟨0, 0, []⟩, ⟨0, 0, []⟩]).trace ++
          [.fi_writemsg ⟨⟨19, 19⟩, 1, 3, ⟨0, 19, 45678⟩, 1, .FI_TRIGGER_THRESHOLD .txcntr 1⟩ 1,
           .fi_writemsg ⟨⟨0, 19⟩, 1, 3, ⟨0, 19, 45678⟩, 1, .null⟩ 0,
           .fi_cntr_wait .txcntr 2 (-1)], welcome_text1 ++ welcome_text2) :=
  (client_submission_order 1
    (example_state true 64 (script_rma true [⟨0, 0, []⟩, ⟨0, 0, []⟩, ⟨0, 0, []⟩]))
    (rma_ready true [⟨0, 0, []⟩, ⟨0, 0, []⟩, ⟨0, 0, []⟩]) (by decide) rfl
    ⟨0, 0, []⟩ ⟨0, 0, []⟩ ⟨0, 0, []⟩ [] rfl).1

/-- C8: under the provider model of `step` (a triggered write is not executed
before its counter has reached the threshold; an executed write copies its
source bytes to the offset 0 of the server's region and then adds one to the
send counter), let the client's `init_fabric` and its two submissions succeed.
Then `run_test` submits the triggered write of `welcome_text2` and the write of
`welcome_text1`, and in every run of any schedule the writes executed so far
are the first `txcntr` of: the write of `welcome_text1`, then the write of
`welcome_text2`.  Once the send counter has reached 2, the first 19 bytes of
the server's region are `welcome_text2`, and the server's `run_test`, whose
counter wait reports that region, returns 0 (data check OK). -/
theorem triggered_write_order (FI_TRIGGER : Nat) (hT : FI_TRIGGER ≠ 0)
    (c0 c : State) (hinit : init_fabric c0 = some (0, c)) (hd : c0.opts.dst_addr = true)
    (w2 w1 wt : Reply) (rest : List Reply) (hs : c.script = w2 :: w1 :: wt :: rest)
    (h2 : w2.ret = 0) (h1 : w1.ret = 0)
    (t0 t : State) (htinit : init_fabric t0 = some (0, t)) (htd : t0.opts.dst_addr = false)
    (w : Reply) (rest1 : List Reply) (hts : t.script = w :: rest1) (hw : 0 ≤ w.ret)
    (sched : List Action) :
    ∃ c1, run_test FI_TRIGGER c0 = some (wt.ret, c1) ∧
      writes_of (c1.trace.drop c.trace.length)
        = [(write2 c.remote_fi_addr, FI_TRIGGER), (write1 c.remote_fi_addr, 0)] ∧
      ∀ todo f, run_schedule FI_TRIGGER sched
          (writes_of (c1.trace.drop c.trace.length), fabric_start c1.buf t.buf)
            = some (todo, f) →
        f.applied.map
            (fun m => read_bytes f.client_buf m.msg_iov.iov_base m.msg_iov.iov_len)
          = [welcome_text1, welcome_text2].take f.txcntr ∧
        (2 ≤ f.txcntr → f.region.take 19 = welcome_text2 ∧
          (w.out = f.region → ∃ t1, run_test FI_TRIGGER t0 = some (0, t1))) := by
  have hb := init_fabric_buf c0 c hinit
  have htb := init_fabric_buf t0 t htinit
  have hd1 : c.opts.dst_addr = true := by rw [hb.2]; exact hd
  have htd1 : t.opts.dst_addr = false := by rw [htb.2]; exact htd
  have hrun := run_test_client FI_TRIGGER c hd1 hb.1 w2 w1 wt rest hs
  rw [if_neg (by simp [h2]), if_neg (by simp [h1])] at hrun
  refine ⟨_, by rw [run_test_of_init FI_TRIGGER c0 c hinit, hrun], ?_, ?_⟩
  · simp [advance, writes_of]
  · intro todo f hrs
    have hw0 : writes_of ((advance { c with buf := welcome_text1 ++ welcome_text2 } rest
        [.fi_writemsg (write2 c.remote_fi_addr) FI_TRIGGER,
         .fi_writemsg (write1 c.remote_fi_addr) 0,
         .fi_cntr_wait .txcntr 2 (-1)]).trace.drop c.trace.length)
        = [(write2 c.remote_fi_addr, FI_TRIGGER), (write1 c.remote_fi_addr, 0)] := by
      simp [advance, writes_of]
    rw [hw0] at hrs
    have hmem := run_schedule_client_states FI_TRIGGER c.remote_fi_addr hT
      (welcome_text1 ++ welcome_text2) t.buf sched _ (todo, f)
      (by simp [client_states, advance]) hrs
    have hprop := client_states_order FI_TRIGGER c.remote_fi_addr t.buf
      (by rw [htb.1]; omega) (todo, f) hmem
    refine ⟨hprop.1, fun h => ⟨hprop.2 h, fun hout => ?_⟩⟩
    have hreg := hprop.2 h
    have hlen : 19 ≤ f.region.length := by
      by_contra hc
      have h3 : (f.region.take 19).length = 19 := by rw [hreg]; exact text_lengths.2
      simp at h3
      omega
    refine ⟨land w (advance t rest1 [.fi_cntr_wait .rxcntr 2 (-1)]), ?_⟩
    rw [run_test_of_init FI_TRIGGER t0 t htinit]
    exact server_check_ok FI_TRIGGER t w rest1 htd1 (by rw [htb.1]; omega) hts hw
      (by rw [hout]; exact hlen) (by rw [hout]; exact hreg)

theorem triggered_write_order_witness :
    (∃ c1, run_test 1
        (example_state true 64 (script_rma true [⟨0, 0, []⟩, ⟨0, 0, []⟩, ⟨0, 0, []⟩]))
          = some (0, c1) ∧
      writes_of (c1.trace.drop (rma_ready true [⟨0, 0, []⟩, ⟨0, 0, []⟩, ⟨0, 0, []⟩]).trace.length)
        = [(write2 3, 1), (write1 3, 0)] ∧
      ∀ todo f, run_schedule 1 [.submit, .submit, .execute 1, .execute 0]
          (writes_of (c1.trace.drop
              (rma_ready true [⟨0, 0, []⟩, ⟨0, 0, []⟩, ⟨0, 0, []⟩]).trace.length),
            fabric_start c1.buf (rma_ready false [⟨0, 0, welcome_text2 ++ List.replicate 19 0⟩]).buf)
            = some (todo, f) →
        f.applied.map
            (fun m => read_bytes f.client_buf m.msg_iov.iov_base m.msg_iov.iov_len)
          = [welcome_text1, welcome_text2].take f.txcntr ∧
        (2 ≤ f.txcntr → f.region.take 19 = welcome_text2 ∧
          ((⟨0, 0, welcome_text2 ++ List.replicate 19 0⟩ : Reply).out = f.region →
            ∃ t1, run_test 1 (example_state false 64
              (script_rma false [⟨0, 0, welcome_text2 ++ List.replicate 19 0⟩]))
                = some (0, t1)))) ∧
    (run_schedule 1 [.submit, .submit, .execute 1, .execute 0]
        ([(write2 3, 1), (write1 3, 0)],
          fabric_start (welcome_text1 ++ welcome_text2) (List.replicate 38 0))).map
      (fun x => (x.2.txcntr, x.2.region))
      = some (2, welcome_text2 ++ List.replicate 19 0) :=
  ⟨triggered_write_order 1 (by decide)
    (example_state true 64 (script_rma true [⟨0, 0, []⟩, ⟨0, 0, []⟩, ⟨0, 0, []⟩]))
    (rma_ready true [⟨0, 0, []⟩, ⟨0, 0, []⟩, ⟨0, 0, []⟩]) (by decide) rfl
    ⟨0, 0, []⟩ ⟨0, 0, []⟩ ⟨0, 0, []⟩ [] rfl rfl rfl
    (example_state false 64 (script_rma false [⟨0, 0, welcome_text2 ++ List.replicate 19 0⟩]))
    (rma_ready false [⟨0, 0, welcome_text2 ++ List.replicate 19 0⟩]) (by decide) rfl
    ⟨0, 0, welcome_text2 ++ List.replicate 19 0⟩ [] rfl (by decide)
    [.submit, .submit, .execute 1, .execute 0], by decide⟩

end RmaTrigger

namespace RmaTrigger

theorem strncmp_eq_zero_iff (n : Nat) : ∀ (a b : Bytes), (b.take n).length = n →
    (∀ x ∈ b.take n, x ≠ 0) → (strncmp n a b = 0 ↔ a.take n = b.take n) := by
  induction n with
  | zero => intro a b _ _; simp [strncmp]
  | succ n ih =>
    intro a b hl hz
    cases b with
    | nil => simp at hl
    | cons y b =>
      have hy : y ≠ 0 := hz y (by simp)
      have hl1 : (b.take n).length = n := by simpa using hl
      have hz1 : ∀ x ∈ b.take n, x ≠ 0 := fun x hx => hz x (by simp [hx])
      cases a with
      | nil =>
        have : ((0 : Nat) : Int) - (y : Int) ≠ 0 := by omega
        simp [strncmp, Ne.symm hy, hy, this]
      | cons x a =>
        by_cases hxy : x = y
        · subst hxy
          simp [strncmp, hy, ih a b hl1 hz1]
        · have : (x : Int) - (y : Int) ≠ 0 := by omega
          simp [strncmp, hxy, this]

theorem text2_leading_bytes : ((welcome_text2 ++ [0]).take 19).length = 19 ∧
    (∀ x ∈ (welcome_text2 ++ [0]).take 19, x ≠ 0) ∧
    (welcome_text2 ++ [0]).take 19 = welcome_text2 := by
  decide

/-- C11: on the server, once `init_fabric` has succeeded, let `w` be the answer
to the wait on `rxcntr` for the value 2 with timeout -1.  When `w.ret` is
negative, `run_test` returns it unchanged and the data are not looked at.  When
`w.ret` is not negative, `run_test` returns 0 if the first 19 bytes of `buf`
(the registered buffer, as the remote writes have left it) are the 19
characters of `welcome_text2`, "Hello2 from Client!", and -1 if they are not. -/
theorem server_data_check (FI_TRIGGER : Nat) (t0 t : State)
    (hinit : init_fabric t0 = some (0, t)) (hd : t0.opts.dst_addr = false)
    (w : Reply) (rest : List Reply) (hs : t.script = w :: rest) :
    (w.ret < 0 → run_test FI_TRIGGER t0
      = some (w.ret, advance t rest [.fi_cntr_wait .rxcntr 2 (-1)])) ∧
    (0 ≤ w.ret → run_test FI_TRIGGER t0
      = some (if (land w (advance t rest [.fi_cntr_wait .rxcntr 2 (-1)])).buf.take 19
                  = welcome_text2 then 0 else -1,
              land w (advance t rest [.fi_cntr_wait .rxcntr 2 (-1)]))) ∧
    strlen welcome_text2 = 19 ∧
    welcome_text2 = "Hello2 from Client!".toList.map Char.toNat := by
  have hb := init_fabric_buf t0 t hinit
  have hd1 : t.opts.dst_addr = false := by rw [hb.2]; exact hd
  refine ⟨?_, ?_, text_lengths.2, rfl⟩
  · intro hneg
    rw [run_test_of_init FI_TRIGGER t0 t hinit]
    unfold run_test_after_init
    rw [if_neg (by simp [hd1]), call_cons _ t w rest hs]
    simp only
    rw [if_pos hneg]
  · intro hpos
    rw [run_test_of_init FI_TRIGGER t0 t hinit]
    unfold run_test_after_init
    rw [if_neg (by simp [hd1]), call_cons _ t w rest hs]
    simp only
    rw [if_neg (not_lt.mpr hpos)]
    have e2 : strlen welcome_text2 = 19 := text_lengths.2
    rw [e2]
    have hiff := strncmp_eq_zero_iff 19
      (land w (advance t rest [.fi_cntr_wait .rxcntr 2 (-1)])).buf (welcome_text2 ++ [0])
      text2_leading_bytes.1 text2_leading_bytes.2.1
    rw [text2_leading_bytes.2.2] at hiff
    by_cases hc : (land w (advance t rest [.fi_cntr_wait .rxcntr 2 (-1)])).buf.take 19
        = welcome_text2
    · rw [if_pos hc, if_neg (by simp [hiff.mpr hc])]
    · rw [if_neg hc, if_pos (fun h => hc (hiff.mp h))]

theorem server_data_check_witness :
    run_test 1 (example_state false 64
        (script_rma false [⟨0, 0, welcome_text2 ++ List.replicate 19 0⟩]))
      = some (if (land ⟨0, 0, welcome_text2 ++ List.replicate 19 0⟩
            (advance (rma_ready false [⟨0, 0, welcome_text2 ++ List.replicate 19 0⟩]) []
              [.fi_cntr_wait .rxcntr 2 (-1)])).buf.take 19 = welcome_text2 then 0 else -1,
          land ⟨0, 0, welcome_text2 ++ List.replicate 19 0⟩
            (advance (rma_ready false [⟨0, 0, welcome_text2 ++ List.replicate 19 0⟩]) []
              [.fi_cntr_wait .rxcntr 2 (-1)])) ∧
    run_test 1 (example_state false 64 (script_rma false [⟨-5, 0, []⟩]))
      = some (-5, advance (rma_ready false [⟨-5, 0, []⟩]) []
          [.fi_cntr_wait .rxcntr 2 (-1)]) ∧
    (run_test 1 (example_state false 64
        (script_rma false [⟨0, 0, welcome_text2 ++ List.replicate 19 0⟩]))).map Prod.fst
      = some 0 ∧
    (run_test 1 (example_state false 64
        (script_rma false [⟨0, 0, welcome_text1 ++ List.replicate 19 0⟩]))).map Prod.fst
      = some (-1) :=
  ⟨(server_data_check 1
      (example_state false 64 (script_rma false [⟨0, 0, welcome_text2 ++ List.replicate 19 0⟩]))
      (rma_ready false [⟨0, 0, welcome_text2 ++ List.replicate 19 0⟩]) (by decide) rfl
      ⟨0, 0, welcome_text2 ++ List.replicate 19 0⟩ [] rfl).2.1 (by decide),
   (server_data_check 1 (example_state false 64 (script_rma false [⟨-5, 0, []⟩]))
      (rma_ready false [⟨-5, 0, []⟩]) (by decide) rfl ⟨-5, 0, []⟩ [] rfl).1 (by decide),
   by decide, by decide⟩

/-- C15 (failing input: any run of the client that reaches the staging).
`alloc_ep_res` allocates and registers `buffer_size` = 19 + 19 = 38 bytes for
`buf`.  The first `sprintf` stores to the indices 0 to 19, the second, which
starts at `buf + 19`, to the indices 19 to 38: its terminating NUL goes to the
index 38, which is not below `buffer_size`; every other index is. -/
theorem staging_writes_past_buffer :
    (init_fabric (example_state true 64 (script_rma true []))).map
      (fun p => (p.1, p.2.buffer_size, p.2.buf.length)) = some (0, 38, 38) ∧
    strlen welcome_text1 + strlen welcome_text2 = 38 ∧
    staging_writes = List.range' 0 20 ++ List.range' 19 20 ∧
    38 ∈ staging_writes ∧
    ¬ (∀ i ∈ staging_writes, i < 38) ∧
    (∀ i ∈ staging_writes, i ≠ 38 → i < 38) := by
  decide

end RmaTrigger

/-- C1 (failing input: `fi_av_insert` returns 0, no address inserted).  With that
answer `init_av` returns 0 right after the insertion, on the initiator and on
the responder, and so does `init_fabric` of the triggered-RMA program; `run`
and the triggered-RMA `run_test` then take the initialisation for a success
and go on to the data phase: the ping-pong injects its messages and reports a
result, the RMA client submits its two writes. -/
theorem av_insert_zero_taken_for_success :
    (Pingpong.init_av linux_errno .little
        (example_state true 64 [⟨-257, 4, []⟩, ⟨0, 4, [1, 2, 3, 4]⟩, ⟨0, 0, []⟩])).map
      (fun p => (p.1, p.2.trace))
      = some (0, [.fi_getname 0, .fi_getname 4, .fi_av_insert [] 1]) ∧
    (Pingpong.init_av linux_errno .little
        (example_state false 64
          [⟨0, 0, []⟩, ⟨0, 0, [4, 0, 0, 0, 0, 0, 0, 0, 1, 2, 3, 4]⟩, ⟨0, 0, []⟩])).map
      (fun p => (p.1, p.2.trace))
      = some (0, [.fi_recv 64 0, .ft_wait_for_comp .rxcq 1, .fi_av_insert [1, 2, 3, 4] 1]) ∧
    (RmaTrigger.init_fabric (example_state true 64 (script_rma_insert_zero.take 12))).map
      (fun p => (p.1, p.2.trace.drop 11)) = some (0, [.fi_av_insert [9, 9] 1]) ∧
    (Pingpong.run linux_errno .little [] (example_state true 0 script_insert_zero)).map
      (fun p => (p.1, p.2.trace.drop 9))
      = some (0, [.fi_av_insert [9, 9] 1, .init_test,
          .fi_inject (List.replicate 16 0) 16 0, .fi_cq_read .rxcq 1, .fi_recv 64 0,
          .clock_gettime_start,
          .fi_inject (List.replicate 8 0) 8 0, .fi_cq_read .rxcq 1, .fi_recv 64 0,
          .clock_gettime_end, .show_perf 8 1 2, .ft_finalize]) ∧
    (RmaTrigger.run_test 1 (example_state true 64 script_rma_insert_zero)).map
      (fun p => (p.1, p.2.trace.drop 11))
      = some (0, [.fi_av_insert [9, 9] 1,
          .fi_writemsg ⟨⟨19, 19⟩, 1, 0, ⟨0, 19, 45678⟩, 1, .FI_TRIGGER_THRESHOLD .txcntr 1⟩ 1,
          .fi_writemsg ⟨⟨0, 19⟩, 1, 0, ⟨0, 19, 45678⟩, 1, .null⟩ 0,
          .fi_cntr_wait .txcntr 2 (-1)]) := by
  refine ⟨by decide, by decide, by decide, by decide, by decide⟩

namespace MsgEpoll

theorem epoll_call_cons (c : Call) (s : State) (r : Reply) (rest : List Reply)
    (h : s.script = r :: rest) : call c s = some (r, advance s rest [c]) := by
  unfold call advance
  rw [h]

/-- C14 (counterexample): `alloc_ep_res` leaves the send queue at 1 and the
receive queue at 2 and registers the tag 2 (the receive queue) for the
descriptor 10 and the tag 1 (the send queue) for the descriptor 11.  In that
state `epoll_wait` returns to the client an event with the tag 2, the one
registered for the receive queue: the code reports an unexpected event and
then reads the send queue.  The server, woken with the tag 1 registered for the
send queue, reports it and reads the receive queue. -/
theorem send_recv_ignores_tag :
    (alloc_ep_res 90 (example_state true script_alloc_ep)).map
      (fun p => (p.1, p.2.trace, p.2.vars))
      = some (0,
          [.malloc 64, .fi_cq_open .txcq, .fi_cq_open .rxcq, .epoll_create1,
            .fi_control_getwait 2, .epoll_ctl_add 5 10 2,
            .fi_control_getwait 1, .epoll_ctl_add 5 11 1,
            .fi_mr_reg 64, .fi_endpoint 90],
          ⟨true, 64, 0, 3, 1, 2, 5⟩) ∧
    (send_recv { script := [ans 0, woken 2, ans 1], trace := [],
                 vars := ⟨true, 64, 0, 3, 1, 2, 5⟩ }).map (fun p => (p.1, p.2.trace))
      = some (0, [.fi_send 13, .epoll_wait 5, .unexpected_event, .fi_cq_sread .txcq]) ∧
    (send_recv { script := [ans 0, woken 1, ans 1], trace := [],
                 vars := ⟨false, 64, 0, 3, 1, 2, 5⟩ }).map (fun p => (p.1, p.2.trace))
      = some (0, [.fi_recv 64, .epoll_wait 5, .unexpected_event, .fi_cq_sread .rxcq]) := by
  decide

/-- C14 (amended): in `send_recv`, once the send or the receive has been posted
and `epoll_wait` has returned an event, the queue that is read with
`fi_cq_sread` is fixed by the role, whatever the tag of the event: the client
reads the send queue and the server the receive queue.  The tag is only
compared with the `fid` of that queue, and a difference is reported as an
unexpected event before the read. -/
theorem send_recv_reads_queue_of_role (s : State) (p ev rd : Reply) (rest : List Reply)
    (hs : s.script = p :: ev :: rd :: rest) (hp : p.ret = 0) (hev : 0 ≤ ev.ret) :
    (s.vars.dst_addr = true →
      send_recv s = some (if rd.ret < 0 then rd.ret else 0,
        advance s rest ([.fi_send 13, .epoll_wait s.vars.epfd] ++
          (if ev.fid ≠ s.vars.txcq then [.unexpected_event] else []) ++
          [.fi_cq_sread .txcq] ++
          (if rd.ret < 0 then [.FT_PROCESS_CQ_ERR .txcq] else [])))) ∧
    (s.vars.dst_addr = false →
      send_recv s = some (if rd.ret < 0 then rd.ret else 0,
        advance s rest ([.fi_recv s.vars.buffer_size, .epoll_wait s.vars.epfd] ++
          (if ev.fid ≠ s.vars.rxcq then [.unexpected_event] else []) ++
          [.fi_cq_sread .rxcq] ++
          (if rd.ret < 0 then [.FT_PROCESS_CQ_ERR .rxcq] else [])))) := by
  have hev' : ¬ ev.ret < 0 := not_lt.mpr hev
  constructor
  · intro hd
    unfold send_recv checked guarded
    rw [if_pos hd, epoll_call_cons _ s p (ev :: rd :: rest) hs]
    simp only [hp, ne_eq, not_true_eq_false, decide_False, Bool.false_eq_true, if_false]
    unfold wait_and_read
    rw [epoll_call_cons _ _ ev (rd :: rest) rfl]
    dsimp only
    rw [if_neg hev']
    by_cases ht : ev.fid ≠ s.vars.txcq <;> by_cases hr : rd.ret < 0 <;>
      simp [advance, emit, call, ht, hr]
  · intro hd
    unfold send_recv checked guarded
    rw [if_neg (by simp [hd]), epoll_call_cons _ s p (ev :: rd :: rest) hs]
    simp only [hp, ne_eq, not_true_eq_false, decide_False, Bool.false_eq_true, if_false]
    unfold wait_and_read
    rw [epoll_call_cons _ _ ev (rd :: rest) rfl]
    dsimp only
    rw [if_neg hev']
    by_cases ht : ev.fid ≠ s.vars.rxcq <;> by_cases hr : rd.ret < 0 <;>
      simp [advance, emit, call, ht, hr]

/-- C14 (amended), on examples: a client woken with the tag of the receive
queue, and a server woken with the tag of its receive queue. -/
theorem send_recv_reads_queue_of_role_witness :
    send_recv { script := [ans 0, woken 2, ans 1], trace := [],
                vars := ⟨true, 64, 90, 3, 1, 2, 5⟩ }
      = some (0, { script := [],
                   trace := [.fi_send 13, .epoll_wait 5, .unexpected_event, .fi_cq_sread .txcq],
                   vars := ⟨true, 64, 90, 3, 1, 2, 5⟩ }) ∧
    send_recv { script := [ans 0, woken 2, ans 1], trace := [],
                vars := ⟨false, 64, 90, 3, 1, 2, 5⟩ }
      = some (0, { script := [],
                   trace := [.fi_recv 64, .epoll_wait 5, .fi_cq_sread .rxcq],
                   vars := ⟨false, 64, 90, 3, 1, 2, 5⟩ }) :=
  ⟨(send_recv_reads_queue_of_role
      { script := [ans 0, woken 2, ans 1], trace := [], vars := ⟨true, 64, 90, 3, 1, 2, 5⟩ }
      (ans 0) (woken 2) (ans 1) [] rfl rfl (by decide)).1 rfl,
   (send_recv_reads_queue_of_role
      { script := [ans 0, woken 2, ans 1], trace := [], vars := ⟨false, 64, 90, 3, 1, 2, 5⟩ }
      (ans 0) (woken 2) (ans 1) [] rfl rfl (by decide)).2 rfl⟩

end MsgEpoll

/-- C13 (failing input: the client of msg_epoll, connected, whose `fi_send` in
`send_recv` fails with -22).  `main` of msg_epoll returns what `send_recv`
returned, -22, not its negation 22, the last statement being `return ret`.
The same `main` negates the code of a failed `server_listen` (61 for -61) and
of a failed `client_connect` (5 for -5), and the `main` of the ping-pong and of
the triggered-RMA program negate the code of a failed run (22 for -22). -/
theorem msg_epoll_main_returns_code_unnegated :
    (MsgEpoll.main MsgEpoll.example_consts linux_errno false
        (MsgEpoll.example_state true ([MsgEpoll.ans 1] ++ MsgEpoll.script_client_connect ++
          [MsgEpoll.ans (-22)]))).map
      (fun p => (p.1, p.2.trace.drop 18))
      = some (-22, [.fi_connect, .fi_eq_sread, .fi_send 13, .fi_shutdown, .ft_free_res,
          .close 5]) ∧
    (MsgEpoll.main MsgEpoll.example_consts linux_errno false
        (MsgEpoll.example_state false [MsgEpoll.ans 1, MsgEpoll.ans (-61)])).map
      (fun p => (p.1, p.2.trace)) = some (61, [.fi_allocinfo, .fi_getinfo]) ∧
    (MsgEpoll.main MsgEpoll.example_consts linux_errno false
        (MsgEpoll.example_state true [MsgEpoll.ans 1, MsgEpoll.ans (-5)])).map
      (fun p => (p.1, p.2.trace)) = some (5, [.fi_allocinfo, .fi_getinfo]) ∧
    (Pingpong.main linux_errno .little [] false
        (example_state true 0 [⟨1, 0, []⟩, ⟨-22, 0, []⟩])).map (fun p => (p.1, p.2.trace))
      = some (22, [.fi_allocinfo, .hints_inject_size 8, .ft_read_addr_opts, .ft_free_res]) ∧
    (RmaTrigger.main 1 false
        (example_state true 64 [⟨1, 0, []⟩, ⟨-22, 0, []⟩])).map (fun p => (p.1, p.2.trace))
      = some (22, [.fi_allocinfo, .ft_read_addr_opts, .ft_free_res]) := by
  decide

end Fabtests
